import Mathlib

/-!
Verification of the pandas-based metrics analysis layer
(`smdebug/profiler/analysis/utils/pandas_data_analysis.py`).

The two input DataFrames are modelled as lists of records; row labels (the
pandas `RangeIndex` and the fractional labels produced by `loc` insertion)
are modelled explicitly as rationals where the code relies on them.
Fallible pandas/Python operations (`min` of an empty sequence, label lookup,
tuple unpacking, float division by zero) are modelled with `Except`.
-/

/-- Python exception kinds raised by the code paths modelled here. -/
inductive PyErr where
  | keyError : PyErr
  | valueError : PyErr
  | zeroDivisionError : PyErr
deriving Repr, DecidableEq

/-- A row of the system-metrics DataFrame.  `phase` is the derived label
column written by `_get_utilization_phase_by_time_interval`; it is absent
(`none`) until that helper runs. -/
structure SysRow where
  timestamp : Int
  timestamp_us : Int
  system_metric : String
  value : ℚ
  phase : Option String
deriving Repr, DecidableEq

/-- A row of the framework-metrics DataFrame.  `duration_us` is the derived
column added by `PandasFrameAnalysis.__init__`. -/
structure FwRow where
  start_time : Int
  end_time : Int
  start_time_us : Int
  end_time_us : Int
  framework_metric : String
  process : String
  step : Int
  duration_us : Int
deriving Repr, DecidableEq

/-- The state of a `PandasFrameAnalysis` object: the two owned DataFrames. -/
structure AnalysisState where
  sys_metrics_df : List SysRow
  framework_metrics_df : List FwRow
deriving Repr, DecidableEq

/-- `PandasFrameAnalysis.__init__`: store both frames and add the
`duration_us = end_time_us - start_time_us` column to the framework frame. -/
def mkPandasFrameAnalysis (system_df : List SysRow) (framework_df : List FwRow) :
    AnalysisState :=
  { sys_metrics_df := system_df
    framework_metrics_df :=
      framework_df.map fun r => { r with duration_us := r.end_time_us - r.start_time_us } }

/-- Decide whether one character list leads another (needle at the front). -/
def charsLeadWith : List Char → List Char → Bool
  | [], _ => true
  | _ :: _, [] => false
  | a :: as, b :: bs => a == b && charsLeadWith as bs

/-- Decide whether a needle occurs contiguously inside a haystack. -/
def charsContain (n : List Char) : List Char → Bool
  | [] => charsLeadWith n []
  | b :: bs => charsLeadWith n (b :: bs) || charsContain n bs

/-- Python's `needle in hay` on strings (contiguous substring test). -/
def strContains (hay needle : String) : Bool :=
  charsContain needle.data hay.data

/-- Python's lexicographic `<=` on strings, by code point. -/
def charsLe : List Char → List Char → Bool
  | [], _ => true
  | _ :: _, [] => false
  | a :: as, b :: bs => if a < b then true else if a == b then charsLe as bs else false

/-- `" and ".join(sorted([a, b]))` for exactly two strings. -/
def sortedJoin (a b : String) : String :=
  if charsLe a.data b.data then a ++ " and " ++ b else b ++ " and " ++ a

/-- `pandas.Series.unique` on the values seen so far: first occurrences,
in order of appearance, given the values already seen. -/
def uniqueFirstAux : List String → List String → List String
  | _, [] => []
  | seen, x :: xs =>
    if x ∈ seen then uniqueFirstAux seen xs else x :: uniqueFirstAux (x :: seen) xs

/-- `pandas.Series.unique`: first occurrences in order of appearance. -/
def uniqueFirst (l : List String) : List String :=
  uniqueFirstAux [] l

/-- The run-length merge of step 2 of `get_training_phase_intervals`
(the `groupby(ne(shift).cumsum)` over `(framework_metric, start_time_us,
end_time_us)` triples): maximal runs of consecutive rows sharing a metric
collapse to one triple with the run's first metric, minimum start and
maximum end. -/
def mergeRuns : List (String × Int × Int) → List (String × Int × Int)
  | [] => []
  | (m, s, e) :: rest =>
    match mergeRuns rest with
    | [] => [(m, s, e)]
    | (m2, s2, e2) :: tail =>
      if m = m2 then (m, min s s2, max e e2) :: tail
      else (m, s, e) :: (m2, s2, e2) :: tail

/-- Python `dict` assignment semantics on an insertion-ordered association
list: replace the value if the key is present, else append. -/
def assocSet {α β : Type} [DecidableEq α] : List (α × β) → α → β → List (α × β)
  | [], k, v => [(k, v)]
  | p :: t, k, v => if p.1 = k then (k, v) :: t else p :: assocSet t k v

/-- Lookup in an insertion-ordered association list. -/
def assocGet {α β : Type} [DecidableEq α] (l : List (α × β)) (k : α) : Option β :=
  (l.find? fun p => decide (p.1 = k)).map (·.2)

/-- A scalar or pandas `Series` value stored in a `JobStats` slot.  Series
are keyed by the row labels of the filtered `step_0` frame. -/
inductive JVal where
  | int : Int → JVal
  | rat : ℚ → JVal
  | series : List (Nat × ℚ) → JVal
deriving Repr, DecidableEq

/-- The `JobStats` container: a `dict` subclass whose `__setitem__` and
`__getitem__` are overridden to use the instance attribute mapping
(`self.__dict__`, here `attr_data`) instead of the inherited dict storage
(here `dict_data`). -/
structure JobStats where
  dict_data : List (String × JVal)
  attr_data : List (String × JVal)
deriving Repr, DecidableEq

/-- `JobStats()`: a freshly constructed instance has empty dict storage and
an empty attribute mapping. -/
def JobStats.empty : JobStats := ⟨[], []⟩

/-- `JobStats.__setitem__`: writes into `self.__dict__`. -/
def JobStats.setItem (js : JobStats) (k : String) (v : JVal) : JobStats :=
  { js with attr_data := assocSet js.attr_data k v }

/-- `JobStats.__getitem__`: reads from `self.__dict__`. -/
def JobStats.getItem (js : JobStats) (k : String) : Option JVal :=
  assocGet js.attr_data k

/-- `len(js)` through the inherited `dict.__len__`: counts the dict storage. -/
def JobStats.dictLen (js : JobStats) : Nat := js.dict_data.length

/-- `list(js)` through the inherited `dict.__iter__`: the dict storage keys. -/
def JobStats.dictKeys (js : JobStats) : List String := js.dict_data.map (·.1)

/-- Python `dict.__eq__` on insertion-ordered association lists: equal
lengths and every key of the left mapped to an equal value on the right. -/
def pyDictEq (a b : List (String × JVal)) : Bool :=
  a.length == b.length &&
    a.all fun p => (b.find? fun q => q.1 == p.1).any fun q => q.2 == p.2

/-- Python `min` over a nonempty iterable; `ValueError` on an empty one. -/
def seriesMin : List Int → Except PyErr Int
  | [] => .error .valueError
  | x :: xs => .ok (xs.foldl min x)

/-- Python `max` over a nonempty iterable; `ValueError` on an empty one. -/
def seriesMax : List Int → Except PyErr Int
  | [] => .error .valueError
  | x :: xs => .ok (xs.foldl max x)

/-- Rows of a DataFrame paired with their `RangeIndex` labels, starting
from a given label. -/
def enumRowsFrom (n : Nat) : List FwRow → List (Nat × FwRow)
  | [] => []
  | r :: rs => (n, r) :: enumRowsFrom (n + 1) rs

/-- The `step_0` frame of `get_job_statistics`: rows with `step == 0` whose
`framework_metric` is in `["Step:ModeKeys.TRAIN", "Step:ModeKeys.GLOBAL"]`,
keeping their original row labels. -/
def stepZeroRows (fw : List FwRow) : List (Nat × FwRow) :=
  (enumRowsFrom 0 fw).filter fun p =>
    p.2.step == 0 &&
      (p.2.framework_metric == "Step:ModeKeys.TRAIN" ||
        p.2.framework_metric == "Step:ModeKeys.GLOBAL")

/-- `series[lab]` on an integer-labelled Series: label-based lookup,
raising `KeyError` when the label is absent. -/
def seriesLookup (s : List (Nat × FwRow)) (lab : Nat) : Except PyErr FwRow :=
  match s.find? fun p => p.1 == lab with
  | some p => .ok p.2
  | none => .error .keyError

/-- The `JobStats` value built by `get_job_statistics` once every fallible
lookup has succeeded, with slots written in source order.
`training_loop_duration` and `training_loop_%` are pandas Series because
line 60 subtracts the whole `step_0["start_time_us"]` column from a scalar. -/
def buildJobStats (startTime endTime : Int) (maxTsUs minTsUs : Int) (r0 : FwRow)
    (maxFwEnd maxFwEndUs : Int) (step0 : List (Nat × FwRow)) : JobStats :=
  let jobDuration : ℚ := ((maxTsUs : ℚ) - (minTsUs : ℚ)) / 1000
  let trainingLoopDuration : List (Nat × ℚ) :=
    step0.map fun p => (p.1, ((maxFwEndUs : ℚ) - (p.2.start_time_us : ℚ)) / 1000)
  let initialization : ℚ := (r0.start_time_us : ℚ) / 1000
  let finalization : ℚ := ((maxTsUs : ℚ) - (maxFwEndUs : ℚ)) / 1000
  (((((((((((JobStats.empty.setItem "start_time" (.int startTime)).setItem
    "end_time" (.int endTime)).setItem
    "job_duration" (.rat jobDuration)).setItem
    "training_loop_start" (.int r0.start_time)).setItem
    "training_loop_end" (.int maxFwEnd)).setItem
    "training_loop_duration" (.series trainingLoopDuration)).setItem
    "initialization" (.rat initialization)).setItem
    "finalization" (.rat finalization)).setItem
    "initialization_%" (.rat (initialization / jobDuration * 100))).setItem
    "training_loop_%" (.series (trainingLoopDuration.map fun p =>
      (p.1, p.2 / jobDuration * 100)))).setItem
    "finalization_%" (.rat (finalization / jobDuration * 100)))

/-- `PandasFrameAnalysis.get_job_statistics`.  Fallible steps in source
order: `min`/`max` over the system timestamp columns (`ValueError` when the
system frame is empty), the label-0 lookup `step_0["start_time"][0]`
(`KeyError` when label 0 is not in the filtered frame), `max` over the
framework end-time columns, then the percentage divisions
(`ZeroDivisionError` when `job_duration` is zero, raised at the first
scalar float division, line 66). -/
def get_job_statistics (st : AnalysisState) : AnalysisState × Except PyErr JobStats :=
  (st,
    match seriesMin (st.sys_metrics_df.map (·.timestamp)),
        seriesMax (st.sys_metrics_df.map (·.timestamp)),
        seriesMax (st.sys_metrics_df.map (·.timestamp_us)),
        seriesMin (st.sys_metrics_df.map (·.timestamp_us)) with
    | .ok startTime, .ok endTime, .ok maxTsUs, .ok minTsUs =>
      match seriesLookup (stepZeroRows st.framework_metrics_df) 0 with
      | .ok r0 =>
        match seriesMax (st.framework_metrics_df.map (·.end_time)),
            seriesMax (st.framework_metrics_df.map (·.end_time_us)) with
        | .ok maxFwEnd, .ok maxFwEndUs =>
          if ((maxTsUs : ℚ) - (minTsUs : ℚ)) / 1000 = 0 then .error .zeroDivisionError
          else .ok (buildJobStats startTime endTime maxTsUs minTsUs r0
            maxFwEnd maxFwEndUs (stepZeroRows st.framework_metrics_df))
        | .error e, _ => .error e
        | _, .error e => .error e
      | .error e => .error e
    | .error e, _, _, _ => .error e
    | _, .error e, _, _ => .error e
    | _, _, .error e, _ => .error e
    | _, _, _, .error e => .error e)

/-- Concrete analysis state used to instantiate the `get_job_statistics`
theorems: two system samples at 100us and 200us and one step-0 training
row spanning 120us to 180us at row label 0. -/
def jsSampleState : AnalysisState :=
  mkPandasFrameAnalysis
    [⟨1, 100, "cpu_usage", 50, none⟩, ⟨2, 200, "cpu_usage", 60, none⟩]
    [⟨1, 2, 120, 180, "Step:ModeKeys.TRAIN", "proc", 0, 0⟩]

/-- Concrete state with a nonempty system frame and no step-0 row. -/
def noStepState : AnalysisState :=
  mkPandasFrameAnalysis
    [⟨1, 100, "cpu_usage", 50, none⟩]
    [⟨1, 2, 10, 20, "Other", "proc", 1, 0⟩]

/-- The value of `get_job_statistics` when it succeeds, or a fresh
`JobStats` when it raises; used to instantiate theorems concretely. -/
def jobStatsOf (st : AnalysisState) : JobStats :=
  match (get_job_statistics st).2 with
  | .ok js => js
  | .error _ => JobStats.empty

/-- The framework row of `jsSampleState` after construction. -/
def jsSampleRow : FwRow := ⟨1, 2, 120, 180, "Step:ModeKeys.TRAIN", "proc", 0, 60⟩

/-- The `JobStats` value `get_job_statistics` returns on `jsSampleState`. -/
def jsSampleStats : JobStats := buildJobStats 1 2 200 100 jsSampleRow 2 180 [(0, jsSampleRow)]

/-- Ordering used when pandas sorts string group keys (code-point order). -/
def strRel : String → String → Prop := fun a b => charsLe a.data b.data = true

instance : DecidableRel strRel := fun a b =>
  inferInstanceAs (Decidable (charsLe a.data b.data = true))

/-- The statistics row produced by `describe(percentiles=[.5,.95,.99])`
after dropping `count`/`std`: mean, min, max and the three percentiles. -/
structure DescribeStats where
  mean : ℚ
  min : ℚ
  max : ℚ
  p50 : ℚ
  p95 : ℚ
  p99 : ℚ
deriving Repr, DecidableEq

/-- NumPy's linear-interpolation percentile on an already-sorted sample. -/
def percentileQ (sortedVals : List ℚ) (q : ℚ) : ℚ :=
  let h : ℚ := q * ((sortedVals.length : ℚ) - 1)
  let lo : Int := ⌊h⌋
  let xlo := sortedVals.getD lo.toNat 0
  let xhi := sortedVals.getD (lo.toNat + 1) xlo
  xlo + (h - (lo : ℚ)) * (xhi - xlo)

/-- `Series.describe(percentiles=[.5,.95,.99])` restricted to the columns
the code keeps (`mean`, `min`, `max`, `50%`, `95%`, `99%`). -/
def describeQ (xs : List ℚ) : DescribeStats :=
  let sortedVals := List.insertionSort (· ≤ ·) xs
  { mean := xs.sum / (xs.length : ℚ)
    min := sortedVals.headD 0
    max := sortedVals.getLastD 0
    p50 := percentileQ sortedVals (1 / 2)
    p95 := percentileQ sortedVals (95 / 100)
    p99 := percentileQ sortedVals (99 / 100) }

/-- `groupby` on a string key with pandas' default `sort=True`: group keys
in sorted order, each paired with its member rows in frame order. -/
def groupByKey {α : Type} (key : α → String) (rows : List α) :
    List (String × List α) :=
  (List.insertionSort strRel (uniqueFirst (rows.map key))).map fun k =>
    (k, rows.filter fun r => key r == k)

/-- One output row of `get_step_statistics`: the group key followed by the
duration statistics. -/
structure StepStatsRow where
  key : String
  stats : DescribeStats
deriving Repr, DecidableEq

/-- `PandasFrameAnalysis.get_step_statistics`: group `duration_us` by the
caller-chosen key.  `step_stats` stays `None` unless `by` is
`"framework_metric"`, `"process"` or `"training_phase"`; the
`training_phase` branch first filters to metrics containing
`"Step:ModeKeys"` and groups by `framework_metric`. -/
def get_step_statistics (st : AnalysisState) (groupKey : String) :
    AnalysisState × Option (List StepStatsRow) :=
  (st,
    if groupKey = "framework_metric" ∨ groupKey = "process" then
      some ((groupByKey
          (fun r => if groupKey = "framework_metric" then r.framework_metric else r.process)
          st.framework_metrics_df).map fun g =>
        ⟨g.1, describeQ (g.2.map fun r => (r.duration_us : ℚ))⟩)
    else if groupKey = "training_phase" then
      some ((groupByKey (fun r => r.framework_metric)
          (st.framework_metrics_df.filter fun r =>
            strContains r.framework_metric "Step:ModeKeys")).map fun g =>
        ⟨g.1, describeQ (g.2.map fun r => (r.duration_us : ℚ))⟩)
    else none)

/-- The loop body of `get_device_usage_stats` over the utilization ranges.
Each range tuple is modelled as a list of bounds so that Python's
`start, end = ranges` unpacking can fail: any arity other than two raises
`ValueError` before the `len(ranges) < 2` guard is ever evaluated, which
makes that guard (and its `return {}`) dead code. -/
def usageLoop (deviceSys : List SysRow) :
    List (List Int) → List ((Int × Int) × Nat) → Except PyErr (List ((Int × Int) × Nat))
  | [], acc => .ok acc
  | ranges :: rest, acc =>
    match ranges with
    | [start, stop] =>
      if ([start, stop] : List Int).length < 2 then
        .ok []
      else
        usageLoop deviceSys rest (assocSet acc (start, stop)
          ((deviceSys.filter fun r =>
            decide ((start : ℚ) ≤ r.value) && decide (r.value ≤ (stop : ℚ))).length))
    | _ => .error .valueError

/-- `PandasFrameAnalysis.get_device_usage_stats`: filter the system frame
to the device, default the ranges to `[(90,100),(10,90),(0,10)]`, then
count rows whose value lies inclusively in each range. -/
def get_device_usage_stats (st : AnalysisState) (device : String)
    (utilization_ranges : Option (List (List Int))) :
    AnalysisState × Except PyErr (List ((Int × Int) × Nat)) :=
  let deviceSys := st.sys_metrics_df.filter fun r => strContains r.system_metric device
  let ranges := utilization_ranges.getD [[90, 100], [10, 90], [0, 10]]
  (st, usageLoop deviceSys ranges [])

/-- A row of the interval DataFrame built by
`get_training_phase_intervals`. -/
structure IvRow where
  start_time_us : Int
  end_time_us : Int
  phase : String
deriving Repr, DecidableEq

/-- The synthetic row inserted between two consecutive tracked intervals:
it spans `end_of_prev + 1` to `start_of_next - 1` and is labelled
`"Between "` plus the two phase names joined in sorted order. -/
def betweenRow (a b : IvRow) : IvRow :=
  ⟨a.end_time_us + 1, b.start_time_us - 1, "Between " ++ sortedJoin a.phase b.phase⟩

/-- The gap-insertion loop of `get_training_phase_intervals` (lines
274-285): for every pair of label-consecutive rows whose phases are both
tracked, produce the between row at fractional label `ind + 0.5`. -/
def mkBetweens (tp : List String) (mode : List (ℚ × IvRow)) : List (ℚ × IvRow) :=
  (mode.zip mode.tail).filterMap fun pq =>
    if pq.1.2.phase ∈ tp ∧ pq.2.2.phase ∈ tp then
      some (pq.1.1 + 1 / 2, betweenRow pq.1.2 pq.2.2)
    else none

/-- `frame[column][lab]` on the labelled interval frame: label-based
lookup raising `KeyError` when the label is absent. -/
def labelLookup (frame : List (ℚ × IvRow)) (lab : ℚ) : Except PyErr IvRow :=
  match frame.find? fun p => p.1 == lab with
  | some p => .ok p.2
  | none => .error .keyError

/-- `Series.min()`: pandas returns NaN (not an error) on an empty series.
In `get_training_phase_intervals` that NaN can only flow into the `Before`
row of a frame whose label-0 lookup raises `KeyError` first, so it is
never observable in a returned frame; `0` stands in for it. -/
def pandasMinNan : List Int → Int
  | [] => 0
  | x :: xs => xs.foldl min x

/-- `Series.max()` with the same NaN convention as `pandasMinNan`. -/
def pandasMaxNan : List Int → Int
  | [] => 0
  | x :: xs => xs.foldl max x

/-- The `Before` row prepended at label -1: from the global minimum system
timestamp to just before the label-0 row. -/
def mkBefore (sysUs : List Int) (r0 : IvRow) : IvRow :=
  ⟨pandasMinNan sysUs, r0.start_time_us - 1, "Before " ++ r0.phase⟩

/-- The `After` row appended last: from the last row's start minus one
(the source's off-by-one: previous start, not previous end) to the global
maximum system timestamp. -/
def mkAfter (sysUs : List Int) (lastRow : IvRow) : IvRow :=
  ⟨lastRow.start_time_us - 1, pandasMaxNan sysUs, "After " ++ lastRow.phase⟩

/-- Label order used by `sort_index()` on the interval frame. -/
def idxLe : (ℚ × IvRow) → (ℚ × IvRow) → Prop := fun p q => p.1 ≤ q.1

/-- Strict label order; the labels in play are pairwise distinct, so the
sorted frame is unique among reorderings. -/
def idxLt : (ℚ × IvRow) → (ℚ × IvRow) → Prop := fun p q => p.1 < q.1

instance : DecidableRel idxLe := fun p q => inferInstanceAs (Decidable (p.1 ≤ q.1))

instance : IsTotal (ℚ × IvRow) idxLe := ⟨fun a b => le_total a.1 b.1⟩

instance : IsTrans (ℚ × IvRow) idxLe := ⟨fun _ _ _ h1 h2 => le_trans h1 h2⟩

instance : IsTrans (ℚ × IvRow) idxLt := ⟨fun _ _ _ h1 h2 => lt_trans h1 h2⟩

instance : IsAntisymm (ℚ × IvRow) idxLt := ⟨fun _ _ h1 h2 => absurd h2 (lt_asymm h1)⟩

/-- Rows labelled with consecutive integer labels starting at `k` (the
`reset_index(drop=True)` labelling). -/
def indexIvsFrom (k : ℚ) : List IvRow → List (ℚ × IvRow)
  | [] => []
  | a :: as => (k, a) :: indexIvsFrom (k + 1) as

/-- The filtered `mode_df` rows with their original `RangeIndex` labels:
`framework_metrics_df[framework_metrics_df["framework_metric"].isin(phase)]`. -/
def modeRowsIdxFrom (phase : List String) : Nat → List FwRow → List (ℚ × FwRow)
  | _, [] => []
  | n, r :: rs =>
    if r.framework_metric ∈ phase then
      ((n : ℚ), r) :: modeRowsIdxFrom phase (n + 1) rs
    else modeRowsIdxFrom phase (n + 1) rs

/-- The single-phase branch's projection
`mode_df[["start_time_us", "end_time_us", "framework_metric"]]` with the
metric column renamed to `phase`. -/
def toIvRow (r : FwRow) : IvRow := ⟨r.start_time_us, r.end_time_us, r.framework_metric⟩

/-- The default phase list: unique `process` values containing
`"Step:ModeKeys"`. -/
def defaultPhaseList (fw : List FwRow) : List String :=
  (uniqueFirst (fw.map (·.process))).filter fun x => strContains x "Step:ModeKeys"

/-- Steps 3-5 of `get_training_phase_intervals` on the labelled `mode_df`:
insert the between rows at fractional labels, build the `Before` row from
the label-0 lookup (the only fallible step; `KeyError` when label 0 is
absent, in particular when no row matched the phase filter), sort by
label, and append the `After` row computed from the last sorted row. -/
def assembleIntervals (sysUs : List Int) (tp : List String)
    (mode : List (ℚ × IvRow)) : Except PyErr (List IvRow) :=
  let frame1 := mode ++ mkBetweens tp mode
  match labelLookup frame1 0 with
  | .error e => .error e
  | .ok r0 =>
    let sorted := (List.insertionSort idxLe (frame1 ++ [(-1, mkBefore sysUs r0)])).map (·.2)
    match sorted.getLast? with
    | none => .error .keyError
    | some lastRow => .ok (sorted ++ [mkAfter sysUs lastRow])

/-- `PandasFrameAnalysis.get_training_phase_intervals`.  With more than one
tracked phase the filtered rows are run-length merged and relabelled
`0..n-1`; with at most one they keep their original labels and only the
column projection is applied. -/
def get_training_phase_intervals (st : AnalysisState) (phase? : Option (List String)) :
    AnalysisState × Except PyErr (List IvRow) :=
  let fw := st.framework_metrics_df
  let phase := match phase? with
    | some p => p
    | none => defaultPhaseList fw
  let modeIdx := modeRowsIdxFrom phase 0 fw
  let trainingPhases := uniqueFirst (modeIdx.map (·.2.framework_metric))
  let mode : List (ℚ × IvRow) :=
    if 1 < phase.length then
      indexIvsFrom 0 ((mergeRuns (modeIdx.map fun p =>
        (p.2.framework_metric, p.2.start_time_us, p.2.end_time_us))).map
          fun t => ⟨t.2.1, t.2.2, t.1⟩)
    else modeIdx.map fun p => (p.1, toIvRow p.2)
  (st, assembleIntervals (st.sys_metrics_df.map (·.timestamp_us)) trainingPhases mode)

/-- The sorted interval list `Before :: ...` characterised directly: each
interval row followed by its between row (when both phases are tracked),
with the labels erased. -/
def weave (tp : List String) : List IvRow → List IvRow
  | [] => []
  | [a] => [a]
  | a :: b :: rest =>
    if a.phase ∈ tp ∧ b.phase ∈ tp then
      a :: betweenRow a b :: weave tp (b :: rest)
    else a :: weave tp (b :: rest)

/-- `weave` with the labels kept: interval `j` at label `k + j`, its
between row at label `k + j + 1/2`. -/
def weaveIdxFrom (tp : List String) : ℚ → List IvRow → List (ℚ × IvRow)
  | _, [] => []
  | k, [a] => [(k, a)]
  | k, a :: b :: rest =>
    if a.phase ∈ tp ∧ b.phase ∈ tp then
      (k, a) :: (k + 1 / 2, betweenRow a b) :: weaveIdxFrom tp (k + 1) (b :: rest)
    else (k, a) :: weaveIdxFrom tp (k + 1) (b :: rest)

/-- Two tracked phases A and B with a gap between them, system timestamps
spanning 0us to 100us. -/
def c1State : AnalysisState :=
  mkPandasFrameAnalysis
    [⟨0, 0, "cpu_usage", 50, none⟩, ⟨0, 100, "cpu_usage", 60, none⟩]
    [⟨0, 0, 10, 20, "A", "pA", 0, 0⟩, ⟨0, 0, 30, 40, "B", "pB", 1, 0⟩]

/-- The framework rows whose metric is in the tracked phase list. -/
def filteredFw (st : AnalysisState) (ps : List String) : List FwRow :=
  st.framework_metrics_df.filter fun r => decide (r.framework_metric ∈ ps)

/-- The merged intervals of step 2 (multi-phase branch): run-length merge
of the filtered rows' `(metric, start, end)` triples. -/
def mergedIvs (st : AnalysisState) (ps : List String) : List IvRow :=
  (mergeRuns ((filteredFw st ps).map fun r =>
    (r.framework_metric, r.start_time_us, r.end_time_us))).map fun t => ⟨t.2.1, t.2.2, t.1⟩

/-- `training_phases`: the unique metrics present among the filtered rows. -/
def trackedPhases (st : AnalysisState) (ps : List String) : List String :=
  uniqueFirst ((filteredFw st ps).map (·.framework_metric))

/-- Two tracked phases with no gap between them: B starts exactly at
A's end plus one. -/
def c4GaplessState : AnalysisState :=
  mkPandasFrameAnalysis
    [⟨0, 0, "cpu_usage", 50, none⟩, ⟨0, 100, "cpu_usage", 60, none⟩]
    [⟨0, 0, 10, 20, "A", "pA", 0, 0⟩, ⟨0, 0, 21, 30, "B", "pB", 1, 0⟩]

/-- Two rows of the single tracked phase, separated by a gap. -/
def c10State : AnalysisState :=
  mkPandasFrameAnalysis
    [⟨0, 0, "cpu_usage", 50, none⟩, ⟨0, 100, "cpu_usage", 60, none⟩]
    [⟨0, 0, 10, 20, "Step:ModeKeys.TRAIN", "p", 0, 0⟩,
      ⟨0, 0, 30, 40, "Step:ModeKeys.TRAIN", "p", 1, 0⟩]

/-- `_get_utilization_phase_by_time_interval`: label each system-metric row
with the phase of each interval containing its timestamp (inclusive
`between`), applied interval by interval in frame order so later intervals
overwrite earlier labels. -/
def labelSysPhases (sys : List SysRow) (ivs : List IvRow) : List SysRow :=
  ivs.foldl (fun acc iv =>
    acc.map fun r =>
      if iv.start_time_us ≤ r.timestamp_us ∧ r.timestamp_us ≤ iv.end_time_us then
        { r with phase := some iv.phase }
      else r) sys

/-- `groupby("phase")` over labelled system rows: pandas drops rows whose
phase label is missing and sorts the group keys. -/
def groupByPhase (rows : List SysRow) : List (String × List SysRow) :=
  (List.insertionSort strRel (uniqueFirst (rows.filterMap (·.phase)))).map fun k =>
    (k, rows.filter fun r => r.phase == some k)

/-- One output row of `get_utilization_stats`: the resource, the training
phase when grouped by phase (`none` in the overall branch, where the single
group is keyed by the resource itself), and the value statistics. -/
structure UtilRow where
  resource : String
  phase : Option String
  stats : DescribeStats
deriving Repr, DecidableEq

/-- The per-resource statistics rows of `get_utilization_stats`, computed
for `"cpu"` then `"gpu"` (substring match on the metric name) and
concatenated. -/
def utilRows (sys : List SysRow) (byPhase : Bool) : List UtilRow :=
  (["cpu", "gpu"].map fun resrc =>
    let sysResrc := sys.filter fun r => strContains r.system_metric resrc
    if byPhase then
      (groupByPhase sysResrc).map fun g =>
        ⟨resrc, some g.1, describeQ (g.2.map (·.value))⟩
    else
      [⟨resrc, none, describeQ (sysResrc.map (·.value))⟩]).flatten

/-- `PandasFrameAnalysis.get_utilization_stats`.  With
`by="training_phase"` it first computes the phase intervals (propagating
their `KeyError`) and writes the phase labels into the system frame —
the one place a query mutates object state — then derives the per-phase
statistics; otherwise it computes overall statistics per resource. -/
def get_utilization_stats (st : AnalysisState) (groupKey : Option String)
    (phase? : Option (List String)) :
    AnalysisState × Except PyErr (List UtilRow) :=
  if groupKey = some "training_phase" then
    match (get_training_phase_intervals st phase?).2 with
    | .error e => (st, .error e)
    | .ok ivs =>
      let st2 : AnalysisState :=
        { st with sys_metrics_df := labelSysPhases st.sys_metrics_df ivs }
      (st2, .ok (utilRows st2.sys_metrics_df true))
  else (st, .ok (utilRows st.sys_metrics_df false))

theorem mergeRuns_chain' (l : List (String × Int × Int)) :
    List.Chain' (fun a b : String × Int × Int => a.1 ≠ b.1) (mergeRuns l) := by
  induction l with
  | nil => simp [mergeRuns]
  | cons x rest ih =>
    obtain ⟨m, s, e⟩ := x
    simp only [mergeRuns]
    rcases h : mergeRuns rest with _ | ⟨⟨m2, s2, e2⟩, tail⟩
    · simp
    · rw [h] at ih
      dsimp only
      obtain ⟨hhead, htail⟩ := List.chain'_cons'.mp ih
      by_cases hm : m = m2
      · rw [if_pos hm]
        exact List.chain'_cons'.mpr ⟨fun z hz => hm ▸ hhead z hz, htail⟩
      · rw [if_neg hm]
        refine List.chain'_cons'.mpr ⟨fun z hz => ?_, ih⟩
        simp only [List.head?_cons, Option.mem_def, Option.some.injEq] at hz
        subst hz
        exact hm

theorem mergeRuns_of_chain' :
    ∀ l : List (String × Int × Int),
      List.Chain' (fun a b : String × Int × Int => a.1 ≠ b.1) l → mergeRuns l = l := by
  intro l hl
  induction l with
  | nil => rfl
  | cons x rest ih =>
    obtain ⟨m, s, e⟩ := x
    have hrest : mergeRuns rest = rest := ih hl.tail
    simp only [mergeRuns, hrest]
    rcases rest with _ | ⟨⟨m2, s2, e2⟩, tail⟩
    · rfl
    · dsimp only
      have hne : m ≠ m2 := by
        have := List.chain'_cons.mp hl
        exact this.1
      rw [if_neg hne]

theorem assocGet_assocSet {α β : Type} [DecidableEq α]
    (l : List (α × β)) (k : α) (v : β) : assocGet (assocSet l k v) k = some v := by
  induction l with
  | nil => simp [assocSet, assocGet]
  | cons p t ih =>
    by_cases hp : p.1 = k
    · simp [assocSet, hp, assocGet]
    · simp only [assocSet, if_neg hp]
      simpa [assocGet, hp] using ih

theorem stepZeroRows_nil_aux (fw : List FwRow)
    (h : ∀ r ∈ fw, ¬(r.step = 0 ∧ (r.framework_metric = "Step:ModeKeys.TRAIN" ∨
      r.framework_metric = "Step:ModeKeys.GLOBAL"))) :
    ∀ n, (enumRowsFrom n fw).filter (fun p =>
      p.2.step == 0 &&
        (p.2.framework_metric == "Step:ModeKeys.TRAIN" ||
          p.2.framework_metric == "Step:ModeKeys.GLOBAL")) = [] := by
  induction fw with
  | nil => intro n; rfl
  | cons r rs ih =>
    intro n
    have hr := h r (List.mem_cons_self r rs)
    have hpred : (r.step == 0 &&
        (r.framework_metric == "Step:ModeKeys.TRAIN" ||
          r.framework_metric == "Step:ModeKeys.GLOBAL")) = false := by
      refine Bool.eq_false_iff.mpr fun hcontra => hr ?_
      simp only [Bool.and_eq_true, Bool.or_eq_true, beq_iff_eq] at hcontra
      exact hcontra
    simp only [enumRowsFrom, List.filter_cons, hpred, Bool.false_eq_true, if_false]
    exact ih (fun r2 hr2 => h r2 (List.mem_cons_of_mem _ hr2)) (n + 1)

theorem stepZeroRows_nil (fw : List FwRow)
    (h : ∀ r ∈ fw, ¬(r.step = 0 ∧ (r.framework_metric = "Step:ModeKeys.TRAIN" ∨
      r.framework_metric = "Step:ModeKeys.GLOBAL"))) :
    stepZeroRows fw = [] :=
  stepZeroRows_nil_aux fw h 0

/-- C5: a framework-metrics table with no row having `step == 0` and a
train/global step metric makes `get_job_statistics` propagate the
`KeyError` of `step_0["start_time"][0]` instead of returning a result. -/
theorem get_job_statistics_no_step0_keyerror (st : AnalysisState)
    (hsys : st.sys_metrics_df ≠ [])
    (hfw : ∀ r ∈ st.framework_metrics_df,
      ¬(r.step = 0 ∧ (r.framework_metric = "Step:ModeKeys.TRAIN" ∨
        r.framework_metric = "Step:ModeKeys.GLOBAL"))) :
    (get_job_statistics st).2 = .error .keyError := by
  obtain ⟨sys, fw⟩ := st
  match sys, hsys with
  | s :: srest, _ =>
    have hz : stepZeroRows fw = [] := stepZeroRows_nil fw hfw
    simp [get_job_statistics, seriesMin, seriesMax, hz, seriesLookup]

theorem get_job_statistics_no_step0_keyerror_witness :
    noStepState.sys_metrics_df ≠ [] ∧
    (∀ r ∈ noStepState.framework_metrics_df,
      ¬(r.step = 0 ∧ (r.framework_metric = "Step:ModeKeys.TRAIN" ∨
        r.framework_metric = "Step:ModeKeys.GLOBAL"))) ∧
    (get_job_statistics noStepState).2 = .error .keyError :=
  ⟨by decide, by decide,
    get_job_statistics_no_step0_keyerror noStepState (by decide) (by decide)⟩

theorem get_job_statistics_ok_dict (st : AnalysisState) (js : JobStats)
    (h : (get_job_statistics st).2 = .ok js) : js.dict_data = [] := by
  simp only [get_job_statistics] at h
  repeat split at h
  all_goals first
    | exact Except.noConfusion h
    | (cases h; rfl)

/-- C9: `JobStats` stores entries in the instance attribute mapping, not in
the inherited dict storage: reads after writes succeed, the dict storage is
untouched by writes, and any `JobStats` returned by `get_job_statistics`
has dict length 0, no iterable keys, and compares equal to the empty dict. -/
theorem jobstats_attr_shadow_dict :
    (∀ (js : JobStats) (k : String) (v : JVal), (js.setItem k v).getItem k = some v) ∧
    (∀ (js : JobStats) (k : String) (v : JVal), (js.setItem k v).dict_data = js.dict_data) ∧
    (∀ (st : AnalysisState) (js : JobStats), (get_job_statistics st).2 = .ok js →
      js.dictLen = 0 ∧ js.dictKeys = [] ∧ pyDictEq js.dict_data [] = true) := by
  refine ⟨fun js k v => ?_, fun js k v => rfl, fun st js h => ?_⟩
  · exact assocGet_assocSet js.attr_data k v
  · have hd := get_job_statistics_ok_dict st js h
    refine ⟨?_, ?_, ?_⟩ <;> simp [JobStats.dictLen, JobStats.dictKeys, pyDictEq, hd]

theorem get_job_statistics_eq_build (st : AnalysisState)
    (stT enT mxU mnU : Int) (r0 : FwRow) (mfe mfeU : Int)
    (h1 : seriesMin (st.sys_metrics_df.map (·.timestamp)) = .ok stT)
    (h2 : seriesMax (st.sys_metrics_df.map (·.timestamp)) = .ok enT)
    (h3 : seriesMax (st.sys_metrics_df.map (·.timestamp_us)) = .ok mxU)
    (h4 : seriesMin (st.sys_metrics_df.map (·.timestamp_us)) = .ok mnU)
    (h5 : seriesLookup (stepZeroRows st.framework_metrics_df) 0 = .ok r0)
    (h6 : seriesMax (st.framework_metrics_df.map (·.end_time)) = .ok mfe)
    (h7 : seriesMax (st.framework_metrics_df.map (·.end_time_us)) = .ok mfeU)
    (hne : mnU ≠ mxU) :
    (get_job_statistics st).2 = .ok (buildJobStats stT enT mxU mnU r0 mfe mfeU
      (stepZeroRows st.framework_metrics_df)) := by
  have hcast : (mxU : ℚ) - (mnU : ℚ) ≠ 0 := by
    rw [sub_ne_zero]
    exact_mod_cast Ne.symm hne
  have hq : ¬(((mxU : ℚ) - (mnU : ℚ)) / 1000 = 0) := by
    rw [div_eq_zero_iff]
    push_neg
    exact ⟨hcast, by norm_num⟩
  simp [get_job_statistics, h1, h2, h3, h4, h5, h6, h7, hq]

theorem jsSampleState_jobstats :
    (get_job_statistics jsSampleState).2 = .ok jsSampleStats := by
  have hz : stepZeroRows jsSampleState.framework_metrics_df = [(0, jsSampleRow)] := by decide
  have h := get_job_statistics_eq_build jsSampleState 1 2 200 100 jsSampleRow 2 180
    rfl rfl rfl rfl (by rw [hz]; rfl) rfl rfl (by decide)
  rw [hz] at h
  exact h

theorem jobstats_attr_shadow_dict_witness :
    ((JobStats.empty.setItem "a" (.int 1)).getItem "a" = some (.int 1)) ∧
    ((JobStats.empty.setItem "a" (.int 1)).dict_data = JobStats.empty.dict_data) ∧
    ((get_job_statistics jsSampleState).2 = .ok jsSampleStats ∧
      jsSampleStats.dictLen = 0 ∧ jsSampleStats.dictKeys = [] ∧
      pyDictEq jsSampleStats.dict_data [] = true) :=
  ⟨jobstats_attr_shadow_dict.1 JobStats.empty "a" (.int 1),
    jobstats_attr_shadow_dict.2.1 JobStats.empty "a" (.int 1),
    jsSampleState_jobstats,
    jobstats_attr_shadow_dict.2.2 jsSampleState jsSampleStats jsSampleState_jobstats⟩

theorem buildJobStats_getItem_vals (stT enT mxU mnU : Int) (r0 : FwRow) (mfe mfeU : Int)
    (step0 : List (Nat × FwRow)) :
    (buildJobStats stT enT mxU mnU r0 mfe mfeU step0).getItem "initialization" =
      some (.rat ((r0.start_time_us : ℚ) / 1000)) ∧
    (buildJobStats stT enT mxU mnU r0 mfe mfeU step0).getItem "finalization" =
      some (.rat (((mxU : ℚ) - (mfeU : ℚ)) / 1000)) ∧
    (buildJobStats stT enT mxU mnU r0 mfe mfeU step0).getItem "training_loop_duration" =
      some (.series (step0.map fun p =>
        (p.1, ((mfeU : ℚ) - (p.2.start_time_us : ℚ)) / 1000))) ∧
    (buildJobStats stT enT mxU mnU r0 mfe mfeU step0).getItem "initialization_%" =
      some (.rat ((r0.start_time_us : ℚ) / 1000 /
        (((mxU : ℚ) - (mnU : ℚ)) / 1000) * 100)) ∧
    (buildJobStats stT enT mxU mnU r0 mfe mfeU step0).getItem "training_loop_%" =
      some (.series ((step0.map fun p =>
        (p.1, ((mfeU : ℚ) - (p.2.start_time_us : ℚ)) / 1000)).map fun p =>
          (p.1, p.2 / (((mxU : ℚ) - (mnU : ℚ)) / 1000) * 100))) ∧
    (buildJobStats stT enT mxU mnU r0 mfe mfeU step0).getItem "finalization_%" =
      some (.rat (((mxU : ℚ) - (mfeU : ℚ)) / 1000 /
        (((mxU : ℚ) - (mnU : ℚ)) / 1000) * 100)) := by
  refine ⟨?_, ?_, ?_, ?_, ?_, ?_⟩ <;>
    simp [buildJobStats, JobStats.setItem, JobStats.getItem, JobStats.empty, assocSet, assocGet]

/-- C3 (amended): for well-formed inputs every phase duration computed by
`get_job_statistics` is non-negative, but the three percentages sum to
`100 * max_sys_ts / (max_sys_ts - min_sys_ts)` — the initialization slot is
the absolute step-0 timestamp, not an offset from the job start — so the
sum strictly exceeds 100 whenever the minimum system timestamp is positive;
it is at most 100 only when the minimum system timestamp is at most 0. -/
theorem job_statistics_durations_nonneg_pct_sum
    (st : AnalysisState) (stT enT mxU mnU : Int) (r0 : FwRow) (mfe mfeU : Int) (js : JobStats)
    (h1 : seriesMin (st.sys_metrics_df.map (·.timestamp)) = .ok stT)
    (h2 : seriesMax (st.sys_metrics_df.map (·.timestamp)) = .ok enT)
    (h3 : seriesMax (st.sys_metrics_df.map (·.timestamp_us)) = .ok mxU)
    (h4 : seriesMin (st.sys_metrics_df.map (·.timestamp_us)) = .ok mnU)
    (h5 : seriesLookup (stepZeroRows st.framework_metrics_df) 0 = .ok r0)
    (h6 : seriesMax (st.framework_metrics_df.map (·.end_time)) = .ok mfe)
    (h7 : seriesMax (st.framework_metrics_df.map (·.end_time_us)) = .ok mfeU)
    (h0 : 0 ≤ mnU) (hlt : mnU < mxU)
    (hloop : ∀ p ∈ stepZeroRows st.framework_metrics_df, p.2.start_time_us ≤ mfeU)
    (hr0lo : mnU ≤ r0.start_time_us)
    (hfin : mfeU ≤ mxU)
    (hok : (get_job_statistics st).2 = .ok js) :
    js.getItem "initialization" = some (.rat ((r0.start_time_us : ℚ) / 1000)) ∧
    0 ≤ (r0.start_time_us : ℚ) / 1000 ∧
    js.getItem "finalization" = some (.rat (((mxU : ℚ) - (mfeU : ℚ)) / 1000)) ∧
    0 ≤ ((mxU : ℚ) - (mfeU : ℚ)) / 1000 ∧
    js.getItem "training_loop_duration" = some (.series
      ((stepZeroRows st.framework_metrics_df).map fun p =>
        (p.1, ((mfeU : ℚ) - (p.2.start_time_us : ℚ)) / 1000))) ∧
    (∀ q ∈ (stepZeroRows st.framework_metrics_df).map (fun p =>
      (p.1, ((mfeU : ℚ) - (p.2.start_time_us : ℚ)) / 1000)), 0 ≤ q.2) ∧
    js.getItem "initialization_%" = some (.rat ((r0.start_time_us : ℚ) / 1000 /
      (((mxU : ℚ) - (mnU : ℚ)) / 1000) * 100)) ∧
    js.getItem "training_loop_%" = some (.series
      (((stepZeroRows st.framework_metrics_df).map fun p =>
        (p.1, ((mfeU : ℚ) - (p.2.start_time_us : ℚ)) / 1000)).map fun p =>
          (p.1, p.2 / (((mxU : ℚ) - (mnU : ℚ)) / 1000) * 100))) ∧
    js.getItem "finalization_%" = some (.rat (((mxU : ℚ) - (mfeU : ℚ)) / 1000 /
      (((mxU : ℚ) - (mnU : ℚ)) / 1000) * 100)) ∧
    (0, ((mfeU : ℚ) - (r0.start_time_us : ℚ)) / 1000 /
      (((mxU : ℚ) - (mnU : ℚ)) / 1000) * 100) ∈
      (((stepZeroRows st.framework_metrics_df).map fun p =>
        (p.1, ((mfeU : ℚ) - (p.2.start_time_us : ℚ)) / 1000)).map fun p =>
          (p.1, p.2 / (((mxU : ℚ) - (mnU : ℚ)) / 1000) * 100)) ∧
    ((r0.start_time_us : ℚ) / 1000 / (((mxU : ℚ) - (mnU : ℚ)) / 1000) * 100 +
      ((mfeU : ℚ) - (r0.start_time_us : ℚ)) / 1000 / (((mxU : ℚ) - (mnU : ℚ)) / 1000) * 100 +
      ((mxU : ℚ) - (mfeU : ℚ)) / 1000 / (((mxU : ℚ) - (mnU : ℚ)) / 1000) * 100 =
      100 * (mxU : ℚ) / ((mxU : ℚ) - (mnU : ℚ))) ∧
    (0 < mnU → 100 <
      (r0.start_time_us : ℚ) / 1000 / (((mxU : ℚ) - (mnU : ℚ)) / 1000) * 100 +
      ((mfeU : ℚ) - (r0.start_time_us : ℚ)) / 1000 / (((mxU : ℚ) - (mnU : ℚ)) / 1000) * 100 +
      ((mxU : ℚ) - (mfeU : ℚ)) / 1000 / (((mxU : ℚ) - (mnU : ℚ)) / 1000) * 100) := by
  have hbuild := get_job_statistics_eq_build st stT enT mxU mnU r0 mfe mfeU
    h1 h2 h3 h4 h5 h6 h7 (ne_of_lt hlt)
  rw [hok] at hbuild
  injection hbuild with hbuild
  subst hbuild
  have hget := buildJobStats_getItem_vals stT enT mxU mnU r0 mfe mfeU
    (stepZeroRows st.framework_metrics_df)
  have hd : (0 : ℚ) < (mxU : ℚ) - (mnU : ℚ) := by
    have : (mnU : ℚ) < (mxU : ℚ) := by exact_mod_cast hlt
    linarith
  have hJ : (mxU : ℚ) - (mnU : ℚ) ≠ 0 := ne_of_gt hd
  have hr0mem : (0, r0) ∈ stepZeroRows st.framework_metrics_df := by
    unfold seriesLookup at h5
    rcases hfind : List.find? (fun p => p.1 == 0) (stepZeroRows st.framework_metrics_df) with
      _ | p
    · rw [hfind] at h5; exact Except.noConfusion h5
    · rw [hfind] at h5
      injection h5 with h5
      have hmem := List.mem_of_find?_eq_some hfind
      have hlab : p.1 = 0 := by
        have := List.find?_some hfind
        simpa using this
      have : p = (0, r0) := by
        obtain ⟨pa, pb⟩ := p
        simp only at hlab h5
        rw [hlab, h5]
      rwa [this] at hmem
  have hsum : (r0.start_time_us : ℚ) / 1000 / (((mxU : ℚ) - (mnU : ℚ)) / 1000) * 100 +
      ((mfeU : ℚ) - (r0.start_time_us : ℚ)) / 1000 / (((mxU : ℚ) - (mnU : ℚ)) / 1000) * 100 +
      ((mxU : ℚ) - (mfeU : ℚ)) / 1000 / (((mxU : ℚ) - (mnU : ℚ)) / 1000) * 100 =
      100 * (mxU : ℚ) / ((mxU : ℚ) - (mnU : ℚ)) := by
    field_simp
    ring
  refine ⟨hget.1, ?_, hget.2.1, ?_, hget.2.2.1, ?_, hget.2.2.2.1, hget.2.2.2.2.1,
    hget.2.2.2.2.2, ?_, hsum, ?_⟩
  · have : (0 : ℚ) ≤ (r0.start_time_us : ℚ) := by
      have h0' : (0 : ℚ) ≤ (mnU : ℚ) := by exact_mod_cast h0
      have hle : (mnU : ℚ) ≤ (r0.start_time_us : ℚ) := by exact_mod_cast hr0lo
      linarith
    positivity
  · have : (mfeU : ℚ) ≤ (mxU : ℚ) := by exact_mod_cast hfin
    have hnum : (0 : ℚ) ≤ (mxU : ℚ) - (mfeU : ℚ) := by linarith
    positivity
  · intro q hq
    obtain ⟨p, hp, rfl⟩ := List.mem_map.mp hq
    have := hloop p hp
    have hle : (p.2.start_time_us : ℚ) ≤ (mfeU : ℚ) := by exact_mod_cast this
    have hnum : (0 : ℚ) ≤ (mfeU : ℚ) - (p.2.start_time_us : ℚ) := by linarith
    positivity
  · exact List.mem_map_of_mem _ (List.mem_map_of_mem _ hr0mem)
  · intro hmn
    rw [hsum, lt_div_iff₀ hd]
    have : (0 : ℚ) < (mnU : ℚ) := by exact_mod_cast hmn
    linarith

/-- C3 counterexample: on the well-formed input `jsSampleState` (system
timestamps 100us and 200us, one step-0 training row from 120us to 180us)
the three percentages are 120, 60 and 20, summing to 200 > 100, because the
initialization slot is the absolute step-0 timestamp divided by 1000. -/
theorem job_statistics_pct_sum_cx :
    (get_job_statistics jsSampleState).2 = .ok jsSampleStats ∧
    jsSampleStats.getItem "initialization_%" = some (.rat 120) ∧
    jsSampleStats.getItem "training_loop_%" = some (.series [(0, 60)]) ∧
    jsSampleStats.getItem "finalization_%" = some (.rat 20) ∧
    ¬((120 : ℚ) + 60 + 20 ≤ 100) := by
  have hget := buildJobStats_getItem_vals 1 2 200 100 jsSampleRow 2 180 [(0, jsSampleRow)]
  have hst : jsSampleStats = buildJobStats 1 2 200 100 jsSampleRow 2 180 [(0, jsSampleRow)] := rfl
  refine ⟨jsSampleState_jobstats, ?_, ?_, ?_, by norm_num⟩
  · rw [hst, hget.2.2.2.1]
    norm_num [jsSampleRow]
  · rw [hst, hget.2.2.2.2.1]
    norm_num [jsSampleRow]
  · rw [hst, hget.2.2.2.2.2]
    norm_num [jsSampleRow]

theorem job_statistics_durations_nonneg_pct_sum_witness :
    jsSampleStats.getItem "initialization" =
      some (.rat ((jsSampleRow.start_time_us : ℚ) / 1000)) ∧
    0 ≤ (jsSampleRow.start_time_us : ℚ) / 1000 ∧
    jsSampleStats.getItem "finalization" =
      some (.rat ((((200 : Int) : ℚ) - ((180 : Int) : ℚ)) / 1000)) ∧
    0 ≤ (((200 : Int) : ℚ) - ((180 : Int) : ℚ)) / 1000 ∧
    jsSampleStats.getItem "training_loop_duration" = some (.series
      ((stepZeroRows jsSampleState.framework_metrics_df).map fun p =>
        (p.1, (((180 : Int) : ℚ) - (p.2.start_time_us : ℚ)) / 1000))) ∧
    (∀ q ∈ (stepZeroRows jsSampleState.framework_metrics_df).map (fun p =>
      (p.1, (((180 : Int) : ℚ) - (p.2.start_time_us : ℚ)) / 1000)), 0 ≤ q.2) ∧
    jsSampleStats.getItem "initialization_%" =
      some (.rat ((jsSampleRow.start_time_us : ℚ) / 1000 /
        ((((200 : Int) : ℚ) - ((100 : Int) : ℚ)) / 1000) * 100)) ∧
    jsSampleStats.getItem "training_loop_%" = some (.series
      (((stepZeroRows jsSampleState.framework_metrics_df).map fun p =>
        (p.1, (((180 : Int) : ℚ) - (p.2.start_time_us : ℚ)) / 1000)).map fun p =>
          (p.1, p.2 / ((((200 : Int) : ℚ) - ((100 : Int) : ℚ)) / 1000) * 100))) ∧
    jsSampleStats.getItem "finalization_%" =
      some (.rat ((((200 : Int) : ℚ) - ((180 : Int) : ℚ)) / 1000 /
        ((((200 : Int) : ℚ) - ((100 : Int) : ℚ)) / 1000) * 100)) ∧
    (0, (((180 : Int) : ℚ) - (jsSampleRow.start_time_us : ℚ)) / 1000 /
      ((((200 : Int) : ℚ) - ((100 : Int) : ℚ)) / 1000) * 100) ∈
      (((stepZeroRows jsSampleState.framework_metrics_df).map fun p =>
        (p.1, (((180 : Int) : ℚ) - (p.2.start_time_us : ℚ)) / 1000)).map fun p =>
          (p.1, p.2 / ((((200 : Int) : ℚ) - ((100 : Int) : ℚ)) / 1000) * 100)) ∧
    ((jsSampleRow.start_time_us : ℚ) / 1000 /
        ((((200 : Int) : ℚ) - ((100 : Int) : ℚ)) / 1000) * 100 +
      (((180 : Int) : ℚ) - (jsSampleRow.start_time_us : ℚ)) / 1000 /
        ((((200 : Int) : ℚ) - ((100 : Int) : ℚ)) / 1000) * 100 +
      (((200 : Int) : ℚ) - ((180 : Int) : ℚ)) / 1000 /
        ((((200 : Int) : ℚ) - ((100 : Int) : ℚ)) / 1000) * 100 =
      100 * ((200 : Int) : ℚ) / (((200 : Int) : ℚ) - ((100 : Int) : ℚ))) ∧
    ((0 : Int) < 100 → 100 <
      (jsSampleRow.start_time_us : ℚ) / 1000 /
        ((((200 : Int) : ℚ) - ((100 : Int) : ℚ)) / 1000) * 100 +
      (((180 : Int) : ℚ) - (jsSampleRow.start_time_us : ℚ)) / 1000 /
        ((((200 : Int) : ℚ) - ((100 : Int) : ℚ)) / 1000) * 100 +
      (((200 : Int) : ℚ) - ((180 : Int) : ℚ)) / 1000 /
        ((((200 : Int) : ℚ) - ((100 : Int) : ℚ)) / 1000) * 100) :=
  job_statistics_durations_nonneg_pct_sum jsSampleState 1 2 200 100 jsSampleRow 2 180
    jsSampleStats rfl rfl rfl rfl rfl rfl rfl (by decide) (by decide) (by decide)
    (by decide) (by decide) jsSampleState_jobstats

/-- C6: any grouping key other than `framework_metric`, `process` and
`training_phase` matches no branch, so `get_step_statistics` returns
`None`. -/
theorem get_step_statistics_unknown_key_none (st : AnalysisState) (groupKey : String)
    (h1 : groupKey ≠ "framework_metric") (h2 : groupKey ≠ "process")
    (h3 : groupKey ≠ "training_phase") :
    (get_step_statistics st groupKey).2 = none := by
  simp [get_step_statistics, h1, h2, h3]

theorem get_step_statistics_unknown_key_none_witness :
    ("step" : String) ≠ "framework_metric" ∧ ("step" : String) ≠ "process" ∧
    ("step" : String) ≠ "training_phase" ∧
    (get_step_statistics (mkPandasFrameAnalysis [] []) "step").2 = none :=
  ⟨by decide, by decide, by decide,
    get_step_statistics_unknown_key_none (mkPandasFrameAnalysis [] []) "step"
      (by decide) (by decide) (by decide)⟩

/-- C2 (code bug): a range tuple with fewer than two elements makes
`get_device_usage_stats` raise `ValueError` at the `start, end = ranges`
unpacking, which runs before the `len(ranges) < 2` guard; the guard that
was meant to log and return `{}` is unreachable. -/
theorem device_usage_short_range_raises :
    (get_device_usage_stats (mkPandasFrameAnalysis [⟨1, 100, "cpu_usage", 50, none⟩] [])
      "cpu" (some [[5]])).2 = .error .valueError := by
  rfl

/-- C7: merging consecutive same-phase rows is idempotent — applying the
run-length merge of `get_training_phase_intervals` to its own output
yields the same interval set as applying it once. -/
theorem mergeRuns_idempotent : ∀ l : List (String × Int × Int),
    mergeRuns (mergeRuns l) = mergeRuns l :=
  fun l => mergeRuns_of_chain' (mergeRuns l) (mergeRuns_chain' l)

theorem ivTwoStep (P : List IvRow → Prop) (h0 : P []) (h1 : ∀ a, P [a])
    (h2 : ∀ a b rest, P (b :: rest) → P (a :: b :: rest)) : ∀ l, P l
  | [] => h0
  | [a] => h1 a
  | a :: b :: rest => h2 a b rest (ivTwoStep P h0 h1 h2 (b :: rest))

theorem mkBetweens_cons_cons (tp : List String) (x y : ℚ × IvRow) (t : List (ℚ × IvRow)) :
    mkBetweens tp (x :: y :: t) =
      (if x.2.phase ∈ tp ∧ y.2.phase ∈ tp then [(x.1 + 1 / 2, betweenRow x.2 y.2)] else []) ++
        mkBetweens tp (y :: t) := by
  by_cases h : x.2.phase ∈ tp ∧ y.2.phase ∈ tp <;>
    simp [mkBetweens, List.zip_cons_cons, List.filterMap_cons, h]

theorem weaveIdxFrom_headEq (tp : List String) (k : ℚ) (a : IvRow) (rest : List IvRow) :
    (weaveIdxFrom tp k (a :: rest)).head? = some (k, a) := by
  cases rest with
  | nil => rfl
  | cons b r =>
    simp only [weaveIdxFrom]
    split <;> rfl

theorem weaveIdxFrom_map_snd (tp : List String) :
    ∀ l : List IvRow, ∀ k, (weaveIdxFrom tp k l).map (·.2) = weave tp l := by
  refine ivTwoStep _ (fun k => rfl) (fun a k => rfl) ?_
  intro a b rest ih k
  simp only [weaveIdxFrom, weave]
  split <;> simp [ih]

theorem weaveIdxFrom_facts (tp : List String) :
    ∀ l : List IvRow, ∀ k, List.Chain' idxLt (weaveIdxFrom tp k l) ∧
      ∀ p ∈ weaveIdxFrom tp k l, k ≤ p.1 := by
  refine ivTwoStep _ ?_ ?_ ?_
  · intro k
    exact ⟨List.chain'_nil, by simp [weaveIdxFrom]⟩
  · intro a k
    refine ⟨by simp [weaveIdxFrom], ?_⟩
    intro p hp
    simp only [weaveIdxFrom, List.mem_singleton] at hp
    rw [hp]
  · intro a b rest ih k
    obtain ⟨ihc, ihb⟩ := ih (k + 1)
    have hW := weaveIdxFrom_headEq tp (k + 1) b rest
    simp only [weaveIdxFrom]
    split
    · refine ⟨?_, ?_⟩
      · refine List.chain'_cons.mpr ⟨?_, ?_⟩
        · show k < k + 1 / 2
          linarith
        · refine List.chain'_cons'.mpr ⟨?_, ihc⟩
          intro z hz
          rw [hW] at hz
          simp only [Option.mem_def, Option.some.injEq] at hz
          subst hz
          show k + 1 / 2 < k + 1
          linarith
      · intro p hp
        rcases List.mem_cons.mp hp with rfl | hp
        · exact le_refl k
        · rcases List.mem_cons.mp hp with rfl | hp
          · show k ≤ k + 1 / 2
            linarith
          · have := ihb p hp
            linarith
    · refine ⟨?_, ?_⟩
      · refine List.chain'_cons'.mpr ⟨?_, ihc⟩
        intro z hz
        rw [hW] at hz
        simp only [Option.mem_def, Option.some.injEq] at hz
        subst hz
        show k < k + 1
        linarith
      · intro p hp
        rcases List.mem_cons.mp hp with rfl | hp
        · exact le_refl k
        · have := ihb p hp
          linarith

theorem modeIdx_betweens_perm (tp : List String) :
    ∀ l : List IvRow, ∀ k,
      List.Perm (indexIvsFrom k l ++ mkBetweens tp (indexIvsFrom k l))
        (weaveIdxFrom tp k l) := by
  refine ivTwoStep _ ?_ ?_ ?_
  · intro k
    simp [indexIvsFrom, mkBetweens, weaveIdxFrom]
  · intro a k
    simp [indexIvsFrom, mkBetweens, weaveIdxFrom]
  · intro a b rest ih k
    show List.Perm (((k, a) :: (k + 1, b) :: indexIvsFrom (k + 1 + 1) rest) ++
        mkBetweens tp ((k, a) :: (k + 1, b) :: indexIvsFrom (k + 1 + 1) rest))
      (weaveIdxFrom tp k (a :: b :: rest))
    rw [mkBetweens_cons_cons]
    dsimp only
    by_cases h : a.phase ∈ tp ∧ b.phase ∈ tp
    · rw [if_pos h]
      show List.Perm
        ((k, a) :: (indexIvsFrom (k + 1) (b :: rest) ++
          ((k + 1 / 2, betweenRow a b) :: mkBetweens tp (indexIvsFrom (k + 1) (b :: rest)))))
        (weaveIdxFrom tp k (a :: b :: rest))
      simp only [weaveIdxFrom, if_pos h]
      refine List.Perm.cons _ ?_
      refine List.Perm.trans List.perm_middle ?_
      exact List.Perm.cons _ (ih (k + 1))
    · rw [if_neg h]
      show List.Perm
        ((k, a) :: (indexIvsFrom (k + 1) (b :: rest) ++
          mkBetweens tp (indexIvsFrom (k + 1) (b :: rest))))
        (weaveIdxFrom tp k (a :: b :: rest))
      simp only [weaveIdxFrom, if_neg h]
      exact List.Perm.cons _ (ih (k + 1))

theorem sort_before_weave (tp : List String) (a : IvRow) (rest : List IvRow)
    (bf : IvRow) :
    List.insertionSort idxLe ((indexIvsFrom 0 (a :: rest) ++
        mkBetweens tp (indexIvsFrom 0 (a :: rest))) ++ [(-1, bf)]) =
      ((-1 : ℚ), bf) :: weaveIdxFrom tp 0 (a :: rest) := by
  have hperm : List.Perm ((indexIvsFrom 0 (a :: rest) ++
      mkBetweens tp (indexIvsFrom 0 (a :: rest))) ++ [((-1 : ℚ), bf)])
      (((-1 : ℚ), bf) :: weaveIdxFrom tp 0 (a :: rest)) :=
    (List.perm_append_singleton _ _).trans
      (List.Perm.cons _ (modeIdx_betweens_perm tp (a :: rest) 0))
  have hfacts := weaveIdxFrom_facts tp (a :: rest) 0
  have hsorted_target : List.Pairwise idxLt
      (((-1 : ℚ), bf) :: weaveIdxFrom tp 0 (a :: rest)) := by
    refine List.pairwise_cons.mpr ⟨?_, List.chain'_iff_pairwise.mp hfacts.1⟩
    intro p hp
    have := hfacts.2 p hp
    show (-1 : ℚ) < p.1
    linarith
  have hperm_sort : List.Perm (List.insertionSort idxLe ((indexIvsFrom 0 (a :: rest) ++
      mkBetweens tp (indexIvsFrom 0 (a :: rest))) ++ [((-1 : ℚ), bf)]))
      (((-1 : ℚ), bf) :: weaveIdxFrom tp 0 (a :: rest)) :=
    (List.perm_insertionSort idxLe _).trans hperm
  have hnd_target : ((((-1 : ℚ), bf) :: weaveIdxFrom tp 0 (a :: rest)).map Prod.fst).Nodup :=
    List.pairwise_map.mpr (hsorted_target.imp fun h => ne_of_lt h)
  have hnd_sort : ((List.insertionSort idxLe ((indexIvsFrom 0 (a :: rest) ++
      mkBetweens tp (indexIvsFrom 0 (a :: rest))) ++ [((-1 : ℚ), bf)])).map Prod.fst).Nodup :=
    (List.Perm.nodup_iff (hperm_sort.map Prod.fst)).mpr hnd_target
  have hsorted_le : List.Pairwise idxLe (List.insertionSort idxLe ((indexIvsFrom 0 (a :: rest) ++
      mkBetweens tp (indexIvsFrom 0 (a :: rest))) ++ [((-1 : ℚ), bf)])) :=
    List.sorted_insertionSort idxLe _
  have hsorted_lt : List.Pairwise idxLt (List.insertionSort idxLe ((indexIvsFrom 0 (a :: rest) ++
      mkBetweens tp (indexIvsFrom 0 (a :: rest))) ++ [((-1 : ℚ), bf)])) := by
    have hne : List.Pairwise (fun p q : ℚ × IvRow => p.1 ≠ q.1)
        (List.insertionSort idxLe ((indexIvsFrom 0 (a :: rest) ++
          mkBetweens tp (indexIvsFrom 0 (a :: rest))) ++ [((-1 : ℚ), bf)])) :=
      List.pairwise_map.mp hnd_sort
    exact (hsorted_le.and hne).imp fun h => lt_of_le_of_ne h.1 h.2
  exact List.eq_of_perm_of_sorted hperm_sort hsorted_lt hsorted_target

theorem weave_getLast? (tp : List String) :
    ∀ l : List IvRow, (weave tp l).getLast? = l.getLast? := by
  refine ivTwoStep _ rfl (fun a => rfl) ?_
  intro a b rest ih
  simp only [weave]
  split
  · simp [List.getLast?_cons, ih]
  · simp [List.getLast?_cons, ih]

theorem assembleIntervals_nil (sysUs : List Int) (tp : List String) :
    assembleIntervals sysUs tp [] = .error .keyError := rfl

theorem assembleIntervals_cons (sysUs : List Int) (tp : List String)
    (a : IvRow) (rest : List IvRow) :
    assembleIntervals sysUs tp (indexIvsFrom 0 (a :: rest)) =
      .ok (mkBefore sysUs a :: (weave tp (a :: rest) ++
        [mkAfter sysUs (rest.getLastD a)])) := by
  have hlook : labelLookup (indexIvsFrom 0 (a :: rest) ++
      mkBetweens tp (indexIvsFrom 0 (a :: rest))) 0 = .ok a := by
    show labelLookup (((0 : ℚ), a) :: (indexIvsFrom (0 + 1) rest ++
      mkBetweens tp (indexIvsFrom 0 (a :: rest)))) 0 = .ok a
    unfold labelLookup
    rw [List.find?_cons_of_pos _ (by simp)]
  have hsort := sort_before_weave tp a rest (mkBefore sysUs a)
  simp only [assembleIntervals, hlook, hsort, List.map_cons, weaveIdxFrom_map_snd]
  have hlast : (mkBefore sysUs a :: weave tp (a :: rest)).getLast? =
      some (rest.getLastD a) := by
    rw [List.getLast?_cons, weave_getLast?, List.getLast?_cons]
    simp [List.getLastD_eq_getLast?]
  rw [hlast]
  rfl

theorem weave_headEq (tp : List String) (a : IvRow) (rest : List IvRow) :
    (weave tp (a :: rest)).head? = some a := by
  cases rest with
  | nil => rfl
  | cons b r =>
    simp only [weave]
    split <;> rfl

theorem weave_chain'_contig (tp : List String) :
    ∀ l : List IvRow, (∀ r ∈ l, r.phase ∈ tp) →
      List.Chain' (fun x y : IvRow => x.end_time_us + 1 = y.start_time_us) (weave tp l) := by
  refine ivTwoStep _ (fun _ => List.chain'_nil) (fun a _ => by simp [weave]) ?_
  intro a b rest ih hmem
  have hab : a.phase ∈ tp ∧ b.phase ∈ tp :=
    ⟨hmem a (by simp), hmem b (by simp)⟩
  simp only [weave, if_pos hab]
  have hW := ih fun r hr => hmem r (List.mem_cons_of_mem _ hr)
  have hWhead := weave_headEq tp b rest
  refine List.chain'_cons.mpr ⟨rfl, ?_⟩
  refine List.chain'_cons'.mpr ⟨?_, hW⟩
  intro z hz
  rw [hWhead] at hz
  simp only [Option.mem_def, Option.some.injEq] at hz
  subst hz
  show (betweenRow a b).end_time_us + 1 = b.start_time_us
  simp only [betweenRow]
  omega

theorem weave_mem_self (tp : List String) :
    ∀ l : List IvRow, ∀ x ∈ l, x ∈ weave tp l := by
  refine ivTwoStep _ (fun x hx => absurd hx (List.not_mem_nil x)) (fun a x hx => hx) ?_
  intro a b rest ih x hx
  simp only [weave]
  rcases List.mem_cons.mp hx with rfl | hx
  · split
    · exact List.mem_cons_self _ _
    · exact List.mem_cons_self _ _
  · have := ih x hx
    split
    · exact List.mem_cons_of_mem _ (List.mem_cons_of_mem _ this)
    · exact List.mem_cons_of_mem _ this

theorem weave_mem_between (tp : List String) :
    ∀ l : List IvRow, ∀ x y : IvRow, (x, y) ∈ l.zip l.tail →
      x.phase ∈ tp → y.phase ∈ tp → betweenRow x y ∈ weave tp l := by
  refine ivTwoStep _ ?_ ?_ ?_
  · intro x y h _ _
    simp at h
  · intro a x y h _ _
    simp at h
  · intro a b rest ih x y h hx hy
    simp only [List.tail_cons, List.zip_cons_cons] at h
    rcases List.mem_cons.mp h with heq | h
    · have hx2 : x = a ∧ y = b := by simpa using heq
      obtain ⟨rfl, rfl⟩ := hx2
      have hcond : x.phase ∈ tp ∧ y.phase ∈ tp := ⟨hx, hy⟩
      simp only [weave, if_pos hcond]
      exact List.mem_cons_of_mem _ (List.mem_cons_self _ _)
    · have hmem : (x, y) ∈ (b :: rest).zip (b :: rest).tail := by
        simpa using h
      have := ih x y hmem hx hy
      simp only [weave]
      split
      · exact List.mem_cons_of_mem _ (List.mem_cons_of_mem _ this)
      · exact List.mem_cons_of_mem _ this

theorem weave_length (tp : List String) :
    ∀ l : List IvRow, (∀ r ∈ l, r.phase ∈ tp) →
      (weave tp l).length = 2 * l.length - 1 := by
  refine ivTwoStep _ (fun _ => rfl) (fun a _ => rfl) ?_
  intro a b rest ih hmem
  have hab : a.phase ∈ tp ∧ b.phase ∈ tp :=
    ⟨hmem a (by simp), hmem b (by simp)⟩
  have := ih fun r hr => hmem r (List.mem_cons_of_mem _ hr)
  simp only [weave, if_pos hab, List.length_cons, this]
  omega

theorem mergeRuns_fst_mem :
    ∀ (l : List (String × Int × Int)) (t : String × Int × Int),
      t ∈ mergeRuns l → t.1 ∈ l.map (·.1) := by
  intro l
  induction l with
  | nil => intro t ht; simp [mergeRuns] at ht
  | cons x rest ih =>
    obtain ⟨m, s, e⟩ := x
    intro t ht
    simp only [mergeRuns] at ht
    rcases h : mergeRuns rest with _ | ⟨⟨m2, s2, e2⟩, tail⟩ <;> rw [h] at ht
    · simp only [List.mem_singleton] at ht
      subst ht
      simp
    · dsimp only at ht
      by_cases hm : m = m2
      · rw [if_pos hm] at ht
        rcases List.mem_cons.mp ht with rfl | ht
        · simp
        · have : t ∈ mergeRuns rest := by rw [h]; exact List.mem_cons_of_mem _ ht
          exact List.mem_cons_of_mem _ (ih t this)
      · rw [if_neg hm] at ht
        rcases List.mem_cons.mp ht with rfl | ht
        · simp
        · have : t ∈ mergeRuns rest := by rw [h]; exact ht
          exact List.mem_cons_of_mem _ (ih t this)

theorem uniqueFirstAux_mem :
    ∀ (l seen : List String) (x : String), x ∈ l →
      x ∈ seen ∨ x ∈ uniqueFirstAux seen l := by
  intro l
  induction l with
  | nil => intro seen x hx; simp at hx
  | cons y ys ih =>
    intro seen x hx
    by_cases hy : y ∈ seen
    · simp only [uniqueFirstAux, if_pos hy]
      rcases List.mem_cons.mp hx with rfl | hx
      · exact Or.inl hy
      · exact ih seen x hx
    · simp only [uniqueFirstAux, if_neg hy]
      rcases List.mem_cons.mp hx with rfl | hx
      · exact Or.inr (List.mem_cons_self _ _)
      · rcases ih (y :: seen) x hx with hseen | haux
        · rcases List.mem_cons.mp hseen with rfl | hseen
          · exact Or.inr (List.mem_cons_self _ _)
          · exact Or.inl hseen
        · exact Or.inr (List.mem_cons_of_mem _ haux)

theorem uniqueFirst_mem (l : List String) (x : String) (hx : x ∈ l) :
    x ∈ uniqueFirst l := by
  rcases uniqueFirstAux_mem l [] x hx with h | h
  · simp at h
  · exact h

theorem pandasMinNan_of_seriesMin (l : List Int) (v : Int)
    (h : seriesMin l = .ok v) : pandasMinNan l = v := by
  cases l with
  | nil => exact Except.noConfusion h
  | cons x xs =>
    simp only [seriesMin, Except.ok.injEq] at h
    exact h

theorem pandasMaxNan_of_seriesMax (l : List Int) (v : Int)
    (h : seriesMax l = .ok v) : pandasMaxNan l = v := by
  cases l with
  | nil => exact Except.noConfusion h
  | cons x xs =>
    simp only [seriesMax, Except.ok.injEq] at h
    exact h

theorem modeRowsIdxFrom_all_match (phase : List String) :
    ∀ (fw : List FwRow) (n : Nat), (∀ r ∈ fw, r.framework_metric ∈ phase) →
      (modeRowsIdxFrom phase n fw).map (fun p => (p.1, toIvRow p.2)) =
        indexIvsFrom (n : ℚ) (fw.map toIvRow) := by
  intro fw
  induction fw with
  | nil => intro n _; rfl
  | cons r rs ih =>
    intro n h
    have hr := h r (List.mem_cons_self r rs)
    simp only [modeRowsIdxFrom, if_pos hr, List.map_cons, indexIvsFrom]
    have := ih (n + 1) fun r2 hr2 => h r2 (List.mem_cons_of_mem _ hr2)
    rw [this]
    norm_num

theorem modeRowsIdxFrom_map_snd (phase : List String) :
    ∀ (fw : List FwRow) (n : Nat),
      (modeRowsIdxFrom phase n fw).map (·.2) =
        fw.filter fun r => decide (r.framework_metric ∈ phase) := by
  intro fw
  induction fw with
  | nil => intro n; rfl
  | cons r rs ih =>
    intro n
    by_cases h : r.framework_metric ∈ phase <;>
      simp [modeRowsIdxFrom, h, List.filter_cons, ih (n + 1)]

theorem modeRowsIdxFrom_nil_of_no_match (phase : List String) :
    ∀ (fw : List FwRow) (n : Nat), (∀ r ∈ fw, r.framework_metric ∉ phase) →
      modeRowsIdxFrom phase n fw = [] := by
  intro fw
  induction fw with
  | nil => intro n _; rfl
  | cons r rs ih =>
    intro n h
    simp only [modeRowsIdxFrom, if_neg (h r (List.mem_cons_self r rs))]
    exact ih (n + 1) fun r2 hr2 => h r2 (List.mem_cons_of_mem _ hr2)

theorem modeRowsIdxFrom_map_metric (ps : List String) (fw : List FwRow) (n : Nat) :
    (modeRowsIdxFrom ps n fw).map (fun p => p.2.framework_metric) =
      (fw.filter fun r => decide (r.framework_metric ∈ ps)).map (·.framework_metric) := by
  have h := congrArg (List.map fun r : FwRow => r.framework_metric)
    (modeRowsIdxFrom_map_snd ps fw n)
  rw [List.map_map] at h
  simpa [Function.comp] using h

theorem modeRowsIdxFrom_map_triple (ps : List String) (fw : List FwRow) (n : Nat) :
    (modeRowsIdxFrom ps n fw).map
        (fun p => (p.2.framework_metric, p.2.start_time_us, p.2.end_time_us)) =
      (fw.filter fun r => decide (r.framework_metric ∈ ps)).map
        (fun r => (r.framework_metric, r.start_time_us, r.end_time_us)) := by
  have h := congrArg
    (List.map fun r : FwRow => (r.framework_metric, r.start_time_us, r.end_time_us))
    (modeRowsIdxFrom_map_snd ps fw n)
  rw [List.map_map] at h
  simpa [Function.comp] using h

theorem get_training_phase_intervals_merged (st : AnalysisState) (ps : List String)
    (hlen : 1 < ps.length) :
    (get_training_phase_intervals st (some ps)).2 =
      assembleIntervals (st.sys_metrics_df.map (·.timestamp_us))
        (uniqueFirst ((st.framework_metrics_df.filter fun r =>
          decide (r.framework_metric ∈ ps)).map (·.framework_metric)))
        (indexIvsFrom 0 ((mergeRuns ((st.framework_metrics_df.filter fun r =>
          decide (r.framework_metric ∈ ps)).map fun r =>
            (r.framework_metric, r.start_time_us, r.end_time_us))).map
              fun t => ⟨t.2.1, t.2.2, t.1⟩)) := by
  simp only [get_training_phase_intervals, if_pos hlen]
  rw [modeRowsIdxFrom_map_metric, modeRowsIdxFrom_map_triple]

theorem get_training_phase_intervals_single (st : AnalysisState) (ps : List String)
    (hlen : ¬1 < ps.length) :
    (get_training_phase_intervals st (some ps)).2 =
      assembleIntervals (st.sys_metrics_df.map (·.timestamp_us))
        (uniqueFirst ((st.framework_metrics_df.filter fun r =>
          decide (r.framework_metric ∈ ps)).map (·.framework_metric)))
        ((modeRowsIdxFrom ps 0 st.framework_metrics_df).map fun p => (p.1, toIvRow p.2)) := by
  simp only [get_training_phase_intervals, if_neg hlen]
  rw [modeRowsIdxFrom_map_metric]

/-- C1 (amended): when more than one phase is tracked and
`get_training_phase_intervals` succeeds, every adjacent pair of returned
intervals except the final one is contiguous (`end_time_us + 1` equals the
next `start_time_us`), the first interval starts at the minimum system
timestamp and the final interval ends at the maximum system timestamp; but
the final (`After`) interval starts at the previous interval's
`start_time_us - 1` (the source computes previous start minus one, not
previous end plus one), overlapping it instead of continuing it. -/
theorem intervals_contig_span (st : AnalysisState) (ps : List String)
    (out : List IvRow) (mn mx : Int)
    (hlen : 1 < ps.length)
    (hout : (get_training_phase_intervals st (some ps)).2 = .ok out)
    (hmn : seriesMin (st.sys_metrics_df.map (·.timestamp_us)) = .ok mn)
    (hmx : seriesMax (st.sys_metrics_df.map (·.timestamp_us)) = .ok mx) :
    List.Chain' (fun x y : IvRow => x.end_time_us + 1 = y.start_time_us) out.dropLast ∧
    out.head?.map (·.start_time_us) = some mn ∧
    out.getLast?.map (·.end_time_us) = some mx ∧
    (∀ aft pen, out.getLast? = some aft → out.dropLast.getLast? = some pen →
      aft.start_time_us = pen.start_time_us - 1 ∧ aft.phase = "After " ++ pen.phase) := by
  rw [get_training_phase_intervals_merged st ps hlen] at hout
  set sysUs := st.sys_metrics_df.map (·.timestamp_us) with hsys
  set tp := uniqueFirst ((st.framework_metrics_df.filter fun r =>
    decide (r.framework_metric ∈ ps)).map (·.framework_metric)) with htp
  rcases hL : (mergeRuns ((st.framework_metrics_df.filter fun r =>
      decide (r.framework_metric ∈ ps)).map fun r =>
        (r.framework_metric, r.start_time_us, r.end_time_us))).map
          (fun t => (⟨t.2.1, t.2.2, t.1⟩ : IvRow)) with _ | ⟨a, rest⟩
  · rw [hL] at hout
    rw [show indexIvsFrom 0 ([] : List IvRow) = [] from rfl, assembleIntervals_nil] at hout
    exact Except.noConfusion hout
  · rw [hL, assembleIntervals_cons] at hout
    injection hout with hout
    subst hout
    have hmem : ∀ r ∈ a :: rest, r.phase ∈ tp := by
      intro r hr
      rw [← hL] at hr
      obtain ⟨t, ht, rfl⟩ := List.mem_map.mp hr
      have hfst := mergeRuns_fst_mem _ t ht
      rw [List.map_map] at hfst
      refine uniqueFirst_mem _ _ ?_
      simpa [Function.comp] using hfst
    have hdl : (mkBefore sysUs a ::
        (weave tp (a :: rest) ++ [mkAfter sysUs (rest.getLastD a)])).dropLast =
        mkBefore sysUs a :: weave tp (a :: rest) := by
      show ((mkBefore sysUs a :: weave tp (a :: rest)) ++
        [mkAfter sysUs (rest.getLastD a)]).dropLast = mkBefore sysUs a :: weave tp (a :: rest)
      exact List.dropLast_concat ..
    refine ⟨?_, ?_, ?_, ?_⟩
    · rw [hdl]
      refine List.chain'_cons'.mpr ⟨?_, weave_chain'_contig tp (a :: rest) hmem⟩
      intro z hz
      rw [weave_headEq] at hz
      simp only [Option.mem_def, Option.some.injEq] at hz
      subst hz
      show (mkBefore sysUs a).end_time_us + 1 = a.start_time_us
      simp only [mkBefore]
      omega
    · simp only [List.head?_cons, Option.map_some', mkBefore]
      rw [pandasMinNan_of_seriesMin _ mn hmn]
    · have hga : (mkBefore sysUs a ::
          (weave tp (a :: rest) ++ [mkAfter sysUs (rest.getLastD a)])).getLast? =
          some (mkAfter sysUs (rest.getLastD a)) := by
        show ((mkBefore sysUs a :: weave tp (a :: rest)) ++
          [mkAfter sysUs (rest.getLastD a)]).getLast? = some (mkAfter sysUs (rest.getLastD a))
        exact List.getLast?_concat ..
      rw [hga]
      simp only [Option.map_some', mkAfter]
      rw [pandasMaxNan_of_seriesMax _ mx hmx]
    · intro aft pen haft hpen
      have hga : (mkBefore sysUs a ::
          (weave tp (a :: rest) ++ [mkAfter sysUs (rest.getLastD a)])).getLast? =
          some (mkAfter sysUs (rest.getLastD a)) := by
        show ((mkBefore sysUs a :: weave tp (a :: rest)) ++
          [mkAfter sysUs (rest.getLastD a)]).getLast? = some (mkAfter sysUs (rest.getLastD a))
        exact List.getLast?_concat ..
      rw [hga] at haft
      injection haft with haft
      rw [hdl] at hpen
      rw [List.getLast?_cons, weave_getLast?, List.getLast?_cons] at hpen
      injection hpen with hpen
      subst haft
      constructor
      · show (rest.getLastD a).start_time_us - 1 = pen.start_time_us - 1
        rw [← hpen]
        simp [List.getLastD_eq_getLast?]
      · show "After " ++ (rest.getLastD a).phase = "After " ++ pen.phase
        rw [← hpen]
        simp [List.getLastD_eq_getLast?]

theorem c1_intervals_eval :
    (get_training_phase_intervals c1State (some ["A", "B"])).2 =
      .ok [⟨0, 9, "Before A"⟩, ⟨10, 20, "A"⟩, ⟨21, 29, "Between A and B"⟩,
        ⟨30, 40, "B"⟩, ⟨29, 100, "After B"⟩] := by
  rw [get_training_phase_intervals_merged c1State ["A", "B"] (by norm_num)]
  show assembleIntervals [0, 100] ["A", "B"]
    (indexIvsFrom 0 [⟨10, 20, "A"⟩, ⟨30, 40, "B"⟩]) = _
  rw [assembleIntervals_cons]
  simp only [Except.ok.injEq]
  decide

/-- C1 counterexample: on `c1State` the returned table ends with the rows
`(30,40,B)` and `(29,100,After B)`; the last pair is not contiguous (40+1
is not 29), so the intervals are neither contiguous nor non-overlapping as
claimed. -/
theorem intervals_after_not_contiguous_cx :
    (get_training_phase_intervals c1State (some ["A", "B"])).2 =
      .ok [⟨0, 9, "Before A"⟩, ⟨10, 20, "A"⟩, ⟨21, 29, "Between A and B"⟩,
        ⟨30, 40, "B"⟩, ⟨29, 100, "After B"⟩] ∧
    ¬((⟨30, 40, "B"⟩ : IvRow).end_time_us + 1 =
      (⟨29, 100, "After B"⟩ : IvRow).start_time_us) :=
  ⟨c1_intervals_eval, by decide⟩

theorem intervals_contig_span_witness :
    List.Chain' (fun x y : IvRow => x.end_time_us + 1 = y.start_time_us)
      ([⟨0, 9, "Before A"⟩, ⟨10, 20, "A"⟩, ⟨21, 29, "Between A and B"⟩,
        ⟨30, 40, "B"⟩, ⟨29, 100, "After B"⟩] : List IvRow).dropLast ∧
    ([⟨0, 9, "Before A"⟩, ⟨10, 20, "A"⟩, ⟨21, 29, "Between A and B"⟩,
        ⟨30, 40, "B"⟩, ⟨29, 100, "After B"⟩] : List IvRow).head?.map
      (·.start_time_us) = some 0 ∧
    ([⟨0, 9, "Before A"⟩, ⟨10, 20, "A"⟩, ⟨21, 29, "Between A and B"⟩,
        ⟨30, 40, "B"⟩, ⟨29, 100, "After B"⟩] : List IvRow).getLast?.map
      (·.end_time_us) = some 100 ∧
    (∀ aft pen,
      ([⟨0, 9, "Before A"⟩, ⟨10, 20, "A"⟩, ⟨21, 29, "Between A and B"⟩,
        ⟨30, 40, "B"⟩, ⟨29, 100, "After B"⟩] : List IvRow).getLast? = some aft →
      ([⟨0, 9, "Before A"⟩, ⟨10, 20, "A"⟩, ⟨21, 29, "Between A and B"⟩,
        ⟨30, 40, "B"⟩, ⟨29, 100, "After B"⟩] : List IvRow).dropLast.getLast? = some pen →
      aft.start_time_us = pen.start_time_us - 1 ∧ aft.phase = "After " ++ pen.phase) :=
  intervals_contig_span c1State ["A", "B"]
    [⟨0, 9, "Before A"⟩, ⟨10, 20, "A"⟩, ⟨21, 29, "Between A and B"⟩,
      ⟨30, 40, "B"⟩, ⟨29, 100, "After B"⟩] 0 100
    (by norm_num) c1_intervals_eval rfl rfl

theorem get_training_phase_intervals_merged2 (st : AnalysisState) (ps : List String)
    (hlen : 1 < ps.length) :
    (get_training_phase_intervals st (some ps)).2 =
      assembleIntervals (st.sys_metrics_df.map (·.timestamp_us)) (trackedPhases st ps)
        (indexIvsFrom 0 (mergedIvs st ps)) :=
  get_training_phase_intervals_merged st ps hlen

theorem mergedIvs_phase_mem (st : AnalysisState) (ps : List String) :
    ∀ r ∈ mergedIvs st ps, r.phase ∈ trackedPhases st ps := by
  intro r hr
  obtain ⟨t, ht, rfl⟩ := List.mem_map.mp hr
  have hfst := mergeRuns_fst_mem _ t ht
  rw [List.map_map] at hfst
  exact uniqueFirst_mem _ _ (by simpa [Function.comp] using hfst)

/-- C4 (amended): (a) with zero matching rows `get_training_phase_intervals`
propagates a `KeyError` (from the label-0 lookup on the empty frame)
instead of returning; (b) with exactly one matching row and more than one
tracked phase it returns the degenerate three-row table
`[Before, interval, After]`; (c) a synthetic `Between` row is produced
between every pair of consecutive merged intervals even when there is no
gap, in which case the row is degenerate: its start exceeds its end. -/
theorem intervals_edge_cases :
    (∀ (st : AnalysisState) (ps : List String),
      (∀ r ∈ st.framework_metrics_df, r.framework_metric ∉ ps) →
      (get_training_phase_intervals st (some ps)).2 = .error .keyError) ∧
    (∀ (st : AnalysisState) (ps : List String) (a : FwRow),
      1 < ps.length →
      st.framework_metrics_df.filter (fun r => decide (r.framework_metric ∈ ps)) = [a] →
      (get_training_phase_intervals st (some ps)).2 = .ok
        [⟨pandasMinNan (st.sys_metrics_df.map (·.timestamp_us)), a.start_time_us - 1,
          "Before " ++ a.framework_metric⟩,
          ⟨a.start_time_us, a.end_time_us, a.framework_metric⟩,
          ⟨a.start_time_us - 1, pandasMaxNan (st.sys_metrics_df.map (·.timestamp_us)),
            "After " ++ a.framework_metric⟩]) ∧
    (∀ (st : AnalysisState) (ps : List String) (out : List IvRow) (x y : IvRow),
      1 < ps.length →
      (get_training_phase_intervals st (some ps)).2 = .ok out →
      (x, y) ∈ (mergedIvs st ps).zip (mergedIvs st ps).tail →
      y.start_time_us = x.end_time_us + 1 →
      betweenRow x y ∈ out ∧
        (betweenRow x y).end_time_us < (betweenRow x y).start_time_us) := by
  refine ⟨?_, ?_, ?_⟩
  · intro st ps h
    have hm : modeRowsIdxFrom ps 0 st.framework_metrics_df = [] :=
      modeRowsIdxFrom_nil_of_no_match ps st.framework_metrics_df 0 h
    simp only [get_training_phase_intervals, hm]
    split
    · exact assembleIntervals_nil _ _
    · exact assembleIntervals_nil _ _
  · intro st ps a hlen hfil
    rw [get_training_phase_intervals_merged st ps hlen, hfil]
    show assembleIntervals (st.sys_metrics_df.map (·.timestamp_us))
      (uniqueFirst ([a].map (·.framework_metric)))
      (indexIvsFrom 0 [⟨a.start_time_us, a.end_time_us, a.framework_metric⟩]) = _
    rw [assembleIntervals_cons]
    rfl
  · intro st ps out x y hlen hout hzip hnogap
    rw [get_training_phase_intervals_merged2 st ps hlen] at hout
    rcases hL : mergedIvs st ps with _ | ⟨a, rest⟩
    · rw [hL] at hzip
      simp at hzip
    · rw [hL] at hzip hout
      rw [assembleIntervals_cons] at hout
      injection hout with hout
      subst hout
      have hxy := List.of_mem_zip hzip
      have hx : x.phase ∈ trackedPhases st ps :=
        mergedIvs_phase_mem st ps x (by rw [hL]; exact hxy.1)
      have hy : y.phase ∈ trackedPhases st ps :=
        mergedIvs_phase_mem st ps y (by
          rw [hL]
          exact List.mem_cons_of_mem _ (by simpa using hxy.2))
      have hbet := weave_mem_between (trackedPhases st ps) (a :: rest) x y hzip hx hy
      refine ⟨?_, ?_⟩
      · exact List.mem_cons_of_mem _ (List.mem_append_left _ hbet)
      · simp only [betweenRow, hnogap]
        omega

/-- C4 counterexample: with zero rows matching the tracked phases the
function raises `KeyError` (at `mode_df["start_time_us"][0]`) instead of
returning a degenerate single-interval table. -/
theorem intervals_zero_rows_error_cx :
    (get_training_phase_intervals
      (mkPandasFrameAnalysis [⟨0, 0, "cpu_usage", 50, none⟩]
        [⟨0, 0, 10, 20, "Other", "p", 0, 0⟩])
      (some ["A", "B"])).2 = .error .keyError := by
  rfl

theorem c4_gapless_eval :
    (get_training_phase_intervals c4GaplessState (some ["A", "B"])).2 =
      .ok [⟨0, 9, "Before A"⟩, ⟨10, 20, "A"⟩, ⟨21, 20, "Between A and B"⟩,
        ⟨21, 30, "B"⟩, ⟨20, 100, "After B"⟩] := by
  rw [get_training_phase_intervals_merged c4GaplessState ["A", "B"] (by norm_num)]
  show assembleIntervals [0, 100] ["A", "B"]
    (indexIvsFrom 0 [⟨10, 20, "A"⟩, ⟨21, 30, "B"⟩]) = _
  rw [assembleIntervals_cons]
  simp only [Except.ok.injEq]
  decide

theorem intervals_edge_cases_witness :
    ((∀ r ∈ (mkPandasFrameAnalysis [⟨0, 0, "cpu_usage", 50, none⟩]
        [⟨0, 0, 10, 20, "Other", "p", 0, 0⟩]).framework_metrics_df,
        r.framework_metric ∉ (["A", "B"] : List String)) ∧
      (get_training_phase_intervals
        (mkPandasFrameAnalysis [⟨0, 0, "cpu_usage", 50, none⟩]
          [⟨0, 0, 10, 20, "Other", "p", 0, 0⟩]) (some ["A", "B"])).2 =
        .error .keyError) ∧
    ((get_training_phase_intervals
        (mkPandasFrameAnalysis [⟨0, 5, "cpu_usage", 50, none⟩]
          [⟨0, 0, 10, 20, "A", "p", 0, 0⟩]) (some ["A", "B"])).2 = .ok
        [⟨pandasMinNan ((mkPandasFrameAnalysis [⟨0, 5, "cpu_usage", 50, none⟩]
            [⟨0, 0, 10, 20, "A", "p", 0, 0⟩]).sys_metrics_df.map (·.timestamp_us)),
          (10 : Int) - 1, "Before " ++ "A"⟩,
          ⟨10, 20, "A"⟩,
          ⟨(10 : Int) - 1, pandasMaxNan ((mkPandasFrameAnalysis
              [⟨0, 5, "cpu_usage", 50, none⟩]
              [⟨0, 0, 10, 20, "A", "p", 0, 0⟩]).sys_metrics_df.map (·.timestamp_us)),
            "After " ++ "A"⟩]) ∧
    (betweenRow ⟨10, 20, "A"⟩ ⟨21, 30, "B"⟩ ∈
        [⟨0, 9, "Before A"⟩, ⟨10, 20, "A"⟩, ⟨21, 20, "Between A and B"⟩,
          ⟨21, 30, "B"⟩, ⟨20, 100, "After B"⟩] ∧
      (betweenRow ⟨10, 20, "A"⟩ ⟨21, 30, "B"⟩).end_time_us <
        (betweenRow ⟨10, 20, "A"⟩ ⟨21, 30, "B"⟩).start_time_us) :=
  ⟨⟨by decide,
    intervals_edge_cases.1
      (mkPandasFrameAnalysis [⟨0, 0, "cpu_usage", 50, none⟩]
        [⟨0, 0, 10, 20, "Other", "p", 0, 0⟩]) ["A", "B"] (by decide)⟩,
    intervals_edge_cases.2.1
      (mkPandasFrameAnalysis [⟨0, 5, "cpu_usage", 50, none⟩]
        [⟨0, 0, 10, 20, "A", "p", 0, 0⟩]) ["A", "B"] ⟨0, 0, 10, 20, "A", "p", 0, 10⟩
      (by norm_num) (by decide),
    intervals_edge_cases.2.2 c4GaplessState ["A", "B"]
      [⟨0, 9, "Before A"⟩, ⟨10, 20, "A"⟩, ⟨21, 20, "Between A and B"⟩,
        ⟨21, 30, "B"⟩, ⟨20, 100, "After B"⟩]
      ⟨10, 20, "A"⟩ ⟨21, 30, "B"⟩ (by norm_num) c4_gapless_eval (by decide) (by decide)⟩

theorem charsLe_refl : ∀ l : List Char, charsLe l l = true := by
  intro l
  induction l with
  | nil => rfl
  | cons c cs ih => simp [charsLe, lt_irrefl, ih]

theorem sortedJoin_self (p : String) : sortedJoin p p = p ++ " and " ++ p := by
  simp [sortedJoin, charsLe_refl]

/-- C10: when exactly one phase is tracked no run-length merge happens —
every matching framework row becomes its own interval, and a synthetic
`"Between X and X"` row (the same phase on both sides) is produced between
each consecutive pair, so the output has 2n+1 rows for n matching rows. -/
theorem single_phase_no_merge (st : AnalysisState) (p : String) (out : List IvRow)
    (hall : ∀ r ∈ st.framework_metrics_df, r.framework_metric = p)
    (hlen2 : 2 ≤ st.framework_metrics_df.length)
    (_hgaps : List.Chain' (fun r s : FwRow => r.end_time_us + 1 < s.start_time_us)
      st.framework_metrics_df)
    (hout : (get_training_phase_intervals st (some [p])).2 = .ok out) :
    (∀ r ∈ st.framework_metrics_df, toIvRow r ∈ out) ∧
    (∀ pr ∈ st.framework_metrics_df.zip st.framework_metrics_df.tail,
      betweenRow (toIvRow pr.1) (toIvRow pr.2) ∈ out ∧
        (betweenRow (toIvRow pr.1) (toIvRow pr.2)).phase =
          "Between " ++ p ++ " and " ++ p) ∧
    out.length = 2 * st.framework_metrics_df.length + 1 := by
  have hlen1 : ¬1 < ([p] : List String).length := by norm_num
  rw [get_training_phase_intervals_single st [p] hlen1] at hout
  have hall' : ∀ r ∈ st.framework_metrics_df, r.framework_metric ∈ ([p] : List String) := by
    intro r hr
    rw [hall r hr]
    exact List.mem_singleton_self p
  rw [modeRowsIdxFrom_all_match [p] st.framework_metrics_df 0 hall',
    show ((0 : Nat) : ℚ) = 0 from by norm_num] at hout
  have hphase : ∀ iv ∈ st.framework_metrics_df.map toIvRow, iv.phase ∈
      uniqueFirst ((st.framework_metrics_df.filter fun r =>
        decide (r.framework_metric ∈ ([p] : List String))).map (·.framework_metric)) := by
    intro iv hiv
    obtain ⟨r, hr, rfl⟩ := List.mem_map.mp hiv
    refine uniqueFirst_mem _ _ ?_
    refine List.mem_map_of_mem _ ?_
    rw [List.mem_filter]
    exact ⟨hr, by simpa using hall' r hr⟩
  rcases hfw : st.framework_metrics_df with _ | ⟨f, fr⟩
  · rw [hfw] at hlen2
    simp at hlen2
  · rw [hfw] at hout hphase hall
    set tp := uniqueFirst ((List.filter
      (fun r => decide (r.framework_metric ∈ ([p] : List String))) (f :: fr)).map
        (·.framework_metric)) with htp
    rw [List.map_cons] at hout
    rw [assembleIntervals_cons] at hout
    injection hout with hout
    subst hout
    have hmem_map : ∀ r ∈ f :: fr, toIvRow r ∈ toIvRow f :: List.map toIvRow fr := by
      intro r hr
      have := List.mem_map_of_mem toIvRow hr
      rwa [List.map_cons] at this
    have hphase' : ∀ iv ∈ toIvRow f :: List.map toIvRow fr, iv.phase ∈ tp := by
      intro iv hiv
      refine hphase iv ?_
      rwa [List.map_cons]
    refine ⟨?_, ?_, ?_⟩
    · intro r hr
      have h2 := weave_mem_self tp _ _ (hmem_map r hr)
      exact List.mem_cons_of_mem _ (List.mem_append_left _ h2)
    · intro pr hpr
      have hz : (toIvRow pr.1, toIvRow pr.2) ∈
          (toIvRow f :: List.map toIvRow fr).zip ((toIvRow f :: List.map toIvRow fr).tail) := by
        rw [List.tail_cons]
        have heq : ((toIvRow f :: fr.map toIvRow).zip (fr.map toIvRow)) =
            ((f :: fr).zip fr).map (Prod.map toIvRow toIvRow) := by
          rw [← List.map_cons, List.zip_map]
        rw [heq]
        have hpr2 : (toIvRow pr.1, toIvRow pr.2) = Prod.map toIvRow toIvRow pr := by
          cases pr
          rfl
        rw [hpr2]
        refine List.mem_map_of_mem _ ?_
        simpa using hpr
      have hm1 : pr.1 ∈ f :: fr := (List.of_mem_zip (by simpa using hpr)).1
      have hm2 : pr.2 ∈ f :: fr := by
        have := (List.of_mem_zip (by simpa using hpr)).2
        exact List.mem_cons_of_mem _ (by simpa using this)
      have hp1 : (toIvRow pr.1).phase = p := hall pr.1 hm1
      have hp2 : (toIvRow pr.2).phase = p := hall pr.2 hm2
      have hin1 : (toIvRow pr.1).phase ∈ tp := hphase' _ (hmem_map _ hm1)
      have hin2 : (toIvRow pr.2).phase ∈ tp := hphase' _ (hmem_map _ hm2)
      have hbet := weave_mem_between tp _ _ _ hz hin1 hin2
      refine ⟨List.mem_cons_of_mem _ (List.mem_append_left _ hbet), ?_⟩
      show "Between " ++ sortedJoin (toIvRow pr.1).phase (toIvRow pr.2).phase =
        "Between " ++ p ++ " and " ++ p
      rw [hp1, hp2, sortedJoin_self]
      simp [String.append_assoc]
    · have hwl := weave_length tp (toIvRow f :: List.map toIvRow fr) hphase'
      simp only [List.length_cons, List.length_map] at hwl
      simp only [List.length_cons, List.length_append, List.length_map,
        List.length_singleton, List.length_nil, hwl]
      omega

theorem c10_eval :
    (get_training_phase_intervals c10State (some ["Step:ModeKeys.TRAIN"])).2 =
      .ok [⟨0, 9, "Before Step:ModeKeys.TRAIN"⟩, ⟨10, 20, "Step:ModeKeys.TRAIN"⟩,
        ⟨21, 29, "Between Step:ModeKeys.TRAIN and Step:ModeKeys.TRAIN"⟩,
        ⟨30, 40, "Step:ModeKeys.TRAIN"⟩, ⟨29, 100, "After Step:ModeKeys.TRAIN"⟩] := by
  rw [get_training_phase_intervals_single c10State ["Step:ModeKeys.TRAIN"] (by norm_num),
    modeRowsIdxFrom_all_match ["Step:ModeKeys.TRAIN"] c10State.framework_metrics_df 0
      (by decide),
    show ((0 : Nat) : ℚ) = 0 from by norm_num]
  show assembleIntervals [0, 100] ["Step:ModeKeys.TRAIN"]
    (indexIvsFrom 0 [⟨10, 20, "Step:ModeKeys.TRAIN"⟩, ⟨30, 40, "Step:ModeKeys.TRAIN"⟩]) = _
  rw [assembleIntervals_cons]
  simp only [Except.ok.injEq]
  decide

theorem single_phase_no_merge_witness :
    (∀ r ∈ c10State.framework_metrics_df, toIvRow r ∈
      [⟨0, 9, "Before Step:ModeKeys.TRAIN"⟩, ⟨10, 20, "Step:ModeKeys.TRAIN"⟩,
        ⟨21, 29, "Between Step:ModeKeys.TRAIN and Step:ModeKeys.TRAIN"⟩,
        ⟨30, 40, "Step:ModeKeys.TRAIN"⟩, ⟨29, 100, "After Step:ModeKeys.TRAIN"⟩]) ∧
    (∀ pr ∈ c10State.framework_metrics_df.zip c10State.framework_metrics_df.tail,
      betweenRow (toIvRow pr.1) (toIvRow pr.2) ∈
        [⟨0, 9, "Before Step:ModeKeys.TRAIN"⟩, ⟨10, 20, "Step:ModeKeys.TRAIN"⟩,
          ⟨21, 29, "Between Step:ModeKeys.TRAIN and Step:ModeKeys.TRAIN"⟩,
          ⟨30, 40, "Step:ModeKeys.TRAIN"⟩, ⟨29, 100, "After Step:ModeKeys.TRAIN"⟩] ∧
        (betweenRow (toIvRow pr.1) (toIvRow pr.2)).phase =
          "Between " ++ "Step:ModeKeys.TRAIN" ++ " and " ++ "Step:ModeKeys.TRAIN") ∧
    ([⟨0, 9, "Before Step:ModeKeys.TRAIN"⟩, ⟨10, 20, "Step:ModeKeys.TRAIN"⟩,
        ⟨21, 29, "Between Step:ModeKeys.TRAIN and Step:ModeKeys.TRAIN"⟩,
        ⟨30, 40, "Step:ModeKeys.TRAIN"⟩,
        ⟨29, 100, "After Step:ModeKeys.TRAIN"⟩] : List IvRow).length =
      2 * c10State.framework_metrics_df.length + 1 :=
  single_phase_no_merge c10State "Step:ModeKeys.TRAIN"
    [⟨0, 9, "Before Step:ModeKeys.TRAIN"⟩, ⟨10, 20, "Step:ModeKeys.TRAIN"⟩,
      ⟨21, 29, "Between Step:ModeKeys.TRAIN and Step:ModeKeys.TRAIN"⟩,
      ⟨30, 40, "Step:ModeKeys.TRAIN"⟩, ⟨29, 100, "After Step:ModeKeys.TRAIN"⟩]
    (by decide) (by decide)
    (by norm_num [c10State, mkPandasFrameAnalysis, List.chain'_cons]) c10_eval

/-- C8: after construction no query operation changes the
framework-metrics table — all five queries leave `framework_metrics_df`
exactly as it was, even `get_utilization_stats`, which does rewrite the
system-metrics table's phase labels. -/
theorem queries_preserve_framework_df (st : AnalysisState)
    (phase1 phase2 : Option (List String)) (key1 : String) (key2 : Option String)
    (device : String) (ranges : Option (List (List Int))) :
    (get_job_statistics st).1.framework_metrics_df = st.framework_metrics_df ∧
    (get_step_statistics st key1).1.framework_metrics_df = st.framework_metrics_df ∧
    (get_utilization_stats st key2 phase2).1.framework_metrics_df =
      st.framework_metrics_df ∧
    (get_device_usage_stats st device ranges).1.framework_metrics_df =
      st.framework_metrics_df ∧
    (get_training_phase_intervals st phase1).1.framework_metrics_df =
      st.framework_metrics_df := by
  refine ⟨rfl, rfl, ?_, rfl, rfl⟩
  unfold get_utilization_stats
  split
  · split <;> rfl
  · rfl
